import Mathlib

/-!
# cfgate: tunnel lifecycle service

A shallow embedding of `internal/cloudflare/tunnel.go` (the `TunnelService`
methods, `BuildConfiguration`, `ensureCatchAllRule`, `TunnelDomain`) and of
`UDPRouteReconciler.Reconcile`, together with the properties the specification
states about them. Condition merging and DNS record reconciliation, whose code
is not among the sources, are modelled from the specification.

Conventions of the embedding:

* a Go `string` is a `String`, a slice is a `List`, a pointer is an `Option`
  (`nil` is `none`), a Go `error` is an `Option GoError` (`nil` is `none`);
* the `Client` interface is a record of state-passing functions over an
  arbitrary remote state `σ`; a service method returns, next to its Go result,
  the remote state it leaves and the list of client calls it made, in order;
* a nil-pointer dereference is an explicit `Exec.nilDeref` outcome;
* the `context.Context` argument and the structured log lines carry no data
  that the results depend on and are left out (the one log argument that can
  fault, `tunnel.ID` after a create, is kept as a nil check).
-/

namespace Cfgate

/-! ## Data model -/

/-- Modelled from the spec: the error values of the package are not declared under
`src/`. A Go `error` is either a failure reported by the remote API client,
classified as a duplicate-entity conflict or not (spec 6), or the result of
`fmt.Errorf(text + ": %w", cause)`, which wraps `cause`. -/
inductive GoError where
  | remote (conflict : Bool) (msg : String)
  | wrapf (text : String) (cause : GoError)
  deriving DecidableEq, Repr

/-- The error `e` is, or wraps (as `errors.Is` and `errors.As` see it), the error `c`. -/
def GoError.wraps : GoError → GoError → Bool
  | .remote k m, c => decide (GoError.remote k m = c)
  | .wrapf t e, c => decide (GoError.wrapf t e = c) || e.wraps c

/-- Modelled from the spec: the `Tunnel` struct is not declared under `src/`; these are
the fields `tunnel.go` reads (`ID`, `Status`) and the name a tunnel is looked
up by. -/
structure Tunnel where
  ID : String
  Name : String
  Status : String
  deriving DecidableEq, Repr

/-- Modelled from the spec: `CreateTunnelParams` is not declared under `src/`; these are
the two fields `EnsureTunnel` sets. -/
structure CreateTunnelParams where
  Name : String
  ConfigSrc : String
  deriving DecidableEq, Repr

/-- Modelled from the spec: `IngressRule` is not declared under `src/`. `Hostname`, `Path`
and `Service` are the fields `tunnel.go` uses; `Extra` stands for every other
field of the struct, whose zero value is `default`. -/
structure IngressRule (ε : Type) where
  Hostname : String
  Path : String
  Service : String
  Extra : ε
  deriving DecidableEq, Repr

/-- Modelled from the spec: `TunnelConfiguration` is not declared under `src/`; `Ingress`
and `OriginRequest` are the fields `tunnel.go` uses, the latter a pointer to
an `OriginRequestConfig`, a type taken as the parameter `ρ`. -/
structure TunnelConfiguration (ε ρ : Type) where
  Ingress : List (IngressRule ε)
  OriginRequest : Option ρ
  deriving DecidableEq, Repr

/-- The composite literal `IngressRule{Service: "http_status:404"}`: every field
other than `Service` has its zero value. -/
def catchAllLiteral (ε : Type) [Inhabited ε] : IngressRule ε :=
  { Hostname := "", Path := "", Service := "http_status:404", Extra := default }

/-- The test `lastRule.Hostname == "" && lastRule.Path == ""` of `ensureCatchAllRule`. -/
def IngressRule.isCatchAll {ε : Type} (r : IngressRule ε) : Bool :=
  r.Hostname == "" && r.Path == ""

/-! ## Pure functions of `tunnel.go` -/

/-- `ensureCatchAllRule` (tunnel.go 165-188). -/
def ensureCatchAllRule {ε ρ : Type} [Inhabited ε]
    (config : TunnelConfiguration ε ρ) : TunnelConfiguration ε ρ :=
  if h : config.Ingress.length = 0 then
    { config with Ingress := config.Ingress ++ [catchAllLiteral ε] }
  else
    let lastRule := config.Ingress.get
      ⟨config.Ingress.length - 1, Nat.sub_lt (Nat.pos_of_ne_zero h) Nat.one_pos⟩
    if lastRule.Hostname = "" ∧ lastRule.Path = "" then
      config
    else
      { config with Ingress := config.Ingress ++ [catchAllLiteral ε] }

/-- `BuildConfiguration` (tunnel.go 154-163). -/
def BuildConfiguration {ε ρ : Type} [Inhabited ε]
    (rules : List (IngressRule ε)) (defaults : Option ρ) : TunnelConfiguration ε ρ :=
  let config : TunnelConfiguration ε ρ := { Ingress := rules, OriginRequest := defaults }
  ensureCatchAllRule config

/-- `TunnelDomain` (tunnel.go 190-193): `fmt.Sprintf("%s.cfargotunnel.com", tunnelID)`. -/
def TunnelDomain (tunnelID : String) : String :=
  tunnelID ++ ".cfargotunnel.com"

/-! ## The client interface and the service methods -/

/-- Modelled from the spec: the `Client` interface is not declared under `src/`; these are
the methods `tunnel.go` calls on it, with the argument and result shapes of the
call sites. Each method maps the remote state before the call to its Go result
and the remote state after the call. -/
structure Client (σ ε ρ : Type) where
  GetTunnelByName : String → String → σ → (Option Tunnel × Option GoError) × σ
  CreateTunnel : String → CreateTunnelParams → σ → (Option Tunnel × Option GoError) × σ
  GetTunnel : String → String → σ → (Option Tunnel × Option GoError) × σ
  GetTunnelToken : String → String → σ → (String × Option GoError) × σ
  UpdateTunnelConfiguration :
    String → String → TunnelConfiguration ε ρ → σ → Option GoError × σ
  DeleteTunnelConnections : String → String → σ → Option GoError × σ
  DeleteTunnel : String → String → σ → Option GoError × σ

/-- One call on the `Client` interface, with its arguments. -/
inductive Call (ε ρ : Type) where
  | GetTunnelByName (accountID name : String)
  | CreateTunnel (accountID : String) (params : CreateTunnelParams)
  | GetTunnel (accountID tunnelID : String)
  | GetTunnelToken (accountID tunnelID : String)
  | UpdateTunnelConfiguration (accountID tunnelID : String)
      (config : TunnelConfiguration ε ρ)
  | DeleteTunnelConnections (accountID tunnelID : String)
  | DeleteTunnel (accountID tunnelID : String)
  deriving DecidableEq, Repr

/-- A call that changes remote state (everything but the three reads). -/
def Call.isMutating {ε ρ : Type} : Call ε ρ → Bool
  | .GetTunnelByName _ _ => false
  | .GetTunnel _ _ => false
  | .GetTunnelToken _ _ => false
  | _ => true

/-- The call is a `CreateTunnel`, whatever its arguments. -/
def Call.isCreateTunnel {ε ρ : Type} : Call ε ρ → Bool
  | .CreateTunnel _ _ => true
  | _ => false

/-- The call is a `DeleteTunnel`, whatever its arguments. -/
def Call.isDeleteTunnel {ε ρ : Type} : Call ε ρ → Bool
  | .DeleteTunnel _ _ => true
  | _ => false

/-- How a Go function ends: it returns its results, or it faults on a nil pointer. -/
inductive Exec (α : Type) where
  | ret (results : α)
  | nilDeref
  deriving DecidableEq, Repr

/-- What one invocation of a service method does: its outcome, the remote state it
leaves, and the client calls it made, in order. -/
structure Run (σ ε ρ α : Type) where
  result : Exec α
  remote : σ
  calls : List (Call ε ρ)
  deriving DecidableEq, Repr

/-- `TunnelService.EnsureTunnel` (tunnel.go 27-67). The Go results are
`(*Tunnel, bool, error)`. -/
def EnsureTunnel {σ ε ρ : Type} (client : Client σ ε ρ) (accountID name : String)
    (st : σ) : Run σ ε ρ (Option Tunnel × Bool × Option GoError) :=
  match client.GetTunnelByName accountID name st with
  | ((existing, err), st1) =>
    let calls1 : List (Call ε ρ) := [Call.GetTunnelByName accountID name]
    match err with
    | some e =>
      ⟨.ret (none, false, some (.wrapf "failed to check for existing tunnel" e)), st1, calls1⟩
    | none =>
      match existing with
      | some t => ⟨.ret (some t, false, none), st1, calls1⟩
      | none =>
        let params : CreateTunnelParams := { Name := name, ConfigSrc := "cloudflare" }
        match client.CreateTunnel accountID params st1 with
        | ((tunnel, err2), st2) =>
          let calls2 := calls1 ++ [Call.CreateTunnel accountID params]
          match err2 with
          | some e => ⟨.ret (none, false, some (.wrapf "failed to create tunnel" e)), st2, calls2⟩
          | none =>
            match tunnel with
            | none => ⟨.nilDeref, st2, calls2⟩
            | some t => ⟨.ret (some t, true, none), st2, calls2⟩

/-- `TunnelService.GetToken` (tunnel.go 69-82). -/
def GetToken {σ ε ρ : Type} (client : Client σ ε ρ) (accountID tunnelID : String)
    (st : σ) : Run σ ε ρ (String × Option GoError) :=
  match client.GetTunnelToken accountID tunnelID st with
  | ((token, err), st1) =>
    let calls1 : List (Call ε ρ) := [Call.GetTunnelToken accountID tunnelID]
    match err with
    | some e => ⟨.ret ("", some (.wrapf "failed to get tunnel token" e)), st1, calls1⟩
    | none => ⟨.ret (token, none), st1, calls1⟩

/-- `TunnelService.UpdateConfiguration` (tunnel.go 84-102). -/
def UpdateConfiguration {σ ε ρ : Type} [Inhabited ε] (client : Client σ ε ρ)
    (accountID tunnelID : String) (config : TunnelConfiguration ε ρ) (st : σ) :
    Run σ ε ρ (Option GoError) :=
  let config := ensureCatchAllRule config
  match client.UpdateTunnelConfiguration accountID tunnelID config st with
  | (err, st1) =>
    let calls1 : List (Call ε ρ) := [Call.UpdateTunnelConfiguration accountID tunnelID config]
    match err with
    | some e => ⟨.ret (some (.wrapf "failed to update tunnel configuration" e)), st1, calls1⟩
    | none => ⟨.ret none, st1, calls1⟩

/-- `TunnelService.Delete` (tunnel.go 104-128). An error of the connection deletion
is only logged. -/
def Delete {σ ε ρ : Type} (client : Client σ ε ρ) (accountID tunnelID : String)
    (st : σ) : Run σ ε ρ (Option GoError) :=
  match client.DeleteTunnelConnections accountID tunnelID st with
  | (_, st1) =>
    let calls1 : List (Call ε ρ) := [Call.DeleteTunnelConnections accountID tunnelID]
    match client.DeleteTunnel accountID tunnelID st1 with
    | (err, st2) =>
      let calls2 := calls1 ++ [Call.DeleteTunnel accountID tunnelID]
      match err with
      | some e => ⟨.ret (some (.wrapf "failed to delete tunnel" e)), st2, calls2⟩
      | none => ⟨.ret none, st2, calls2⟩

/-- `TunnelService.IsHealthy` (tunnel.go 130-152). -/
def IsHealthy {σ ε ρ : Type} (client : Client σ ε ρ) (accountID tunnelID : String)
    (st : σ) : Run σ ε ρ (Bool × Option GoError) :=
  match client.GetTunnel accountID tunnelID st with
  | ((tunnel, err), st1) =>
    let calls1 : List (Call ε ρ) := [Call.GetTunnel accountID tunnelID]
    match err with
    | some e => ⟨.ret (false, some (.wrapf "failed to get tunnel" e)), st1, calls1⟩
    | none =>
      match tunnel with
      | none => ⟨.ret (false, none), st1, calls1⟩
      | some t =>
        let healthy := t.Status == "healthy" || t.Status == "active"
        ⟨.ret (healthy, none), st1, calls1⟩

/-! ## An in-memory remote account -/

/-- Modelled from the spec: the in-memory fake of the remote account (spec 9, "the test
suite substitutes an in-memory fake implementing the same capability
contract"); its code is not under `src/`. It holds the tunnels of every
account, the configuration last written for each tunnel, and the counter from
which the remote system assigns identities. -/
structure MemState (ε ρ : Type) where
  tunnels : List (String × Tunnel)
  configs : List ((String × String) × TunnelConfiguration ε ρ)
  nextID : Nat
  deriving DecidableEq, Repr

/-- The stored entry is a tunnel of account `accountID` with name `name`. -/
def MemState.named (accountID name : String) (p : String × Tunnel) : Bool :=
  decide (p.1 = accountID ∧ p.2.Name = name)

/-- The stored entry is the tunnel of account `accountID` with identity `tunnelID`. -/
def MemState.identified (accountID tunnelID : String) (p : String × Tunnel) : Bool :=
  decide (p.1 = accountID ∧ p.2.ID = tunnelID)

/-- The number of remote tunnels of account `accountID` that carry the name `name`. -/
def MemState.count {ε ρ : Type} (s : MemState ε ρ) (accountID name : String) : Nat :=
  (s.tunnels.filter (MemState.named accountID name)).length

/-- The identity the in-memory account assigns to its `n`-th tunnel. -/
def MemState.freshID (n : Nat) : String :=
  "tunnel-" ++ String.mk (List.replicate n 'i')

/-- Modelled from the spec: the in-memory client over `MemState`. `CreateTunnel` stores a
new tunnel under a fresh identity and `GetTunnelByName` returns the stored
tunnel with that name; "not found" is an absent result, not an error (spec 6).
With `strict` the account refuses a second tunnel of the same name with a
conflict-classified error, as the remote API does; without it every create is
stored. -/
def memClient {ε ρ : Type} (strict : Bool) : Client (MemState ε ρ) ε ρ where
  GetTunnelByName := fun accountID name s =>
    (((s.tunnels.find? (MemState.named accountID name)).map Prod.snd, none), s)
  CreateTunnel := fun accountID params s =>
    if strict && s.tunnels.any (MemState.named accountID params.Name) then
      ((none, some (.remote true "tunnel name already in use")), s)
    else
      let t : Tunnel :=
        { ID := MemState.freshID s.nextID, Name := params.Name, Status := "inactive" }
      ((some t, none), { s with tunnels := s.tunnels ++ [(accountID, t)], nextID := s.nextID + 1 })
  GetTunnel := fun accountID tunnelID s =>
    (((s.tunnels.find? (MemState.identified accountID tunnelID)).map Prod.snd, none), s)
  GetTunnelToken := fun accountID tunnelID s =>
    if s.tunnels.any (MemState.identified accountID tunnelID) then
      (("token-" ++ tunnelID, none), s)
    else
      (("", some (.remote false "tunnel not found")), s)
  UpdateTunnelConfiguration := fun accountID tunnelID config s =>
    if s.tunnels.any (MemState.identified accountID tunnelID) then
      (none, { s with configs := ((accountID, tunnelID), config) ::
        s.configs.filter (fun c => decide (c.1 ≠ (accountID, tunnelID))) })
    else
      (some (.remote false "tunnel not found"), s)
  DeleteTunnelConnections := fun _ _ s => (none, s)
  DeleteTunnel := fun accountID tunnelID s =>
    (none, { s with
      tunnels := s.tunnels.filter (fun p => !MemState.identified accountID tunnelID p),
      configs := s.configs.filter (fun c => decide (c.1 ≠ (accountID, tunnelID))) })

/-- A second reconciler sharing the remote account: the state pairs the remote
state with a create the rival has pending, and the rival performs it right
after this client has answered a lookup by name, that is between the lookup
and the create of an `EnsureTunnel` in flight. Every other call goes through
to `client` unchanged. -/
def withRival {σ ε ρ : Type} (client : Client σ ε ρ) :
    Client (σ × Option (String × CreateTunnelParams)) ε ρ where
  GetTunnelByName := fun accountID name s =>
    match client.GetTunnelByName accountID name s.1 with
    | (r, st1) =>
      match s.2 with
      | some (rivalAccount, rivalParams) =>
        (r, ((client.CreateTunnel rivalAccount rivalParams st1).2, none))
      | none => (r, (st1, none))
  CreateTunnel := fun accountID params s =>
    ((client.CreateTunnel accountID params s.1).1, ((client.CreateTunnel accountID params s.1).2, s.2))
  GetTunnel := fun accountID tunnelID s =>
    ((client.GetTunnel accountID tunnelID s.1).1, ((client.GetTunnel accountID tunnelID s.1).2, s.2))
  GetTunnelToken := fun accountID tunnelID s =>
    ((client.GetTunnelToken accountID tunnelID s.1).1,
      ((client.GetTunnelToken accountID tunnelID s.1).2, s.2))
  UpdateTunnelConfiguration := fun accountID tunnelID config s =>
    ((client.UpdateTunnelConfiguration accountID tunnelID config s.1).1,
      ((client.UpdateTunnelConfiguration accountID tunnelID config s.1).2, s.2))
  DeleteTunnelConnections := fun accountID tunnelID s =>
    ((client.DeleteTunnelConnections accountID tunnelID s.1).1,
      ((client.DeleteTunnelConnections accountID tunnelID s.1).2, s.2))
  DeleteTunnel := fun accountID tunnelID s =>
    ((client.DeleteTunnel accountID tunnelID s.1).1,
      ((client.DeleteTunnel accountID tunnelID s.1).2, s.2))

/-- The empty remote account. -/
def MemState.empty {ε ρ : Type} : MemState ε ρ :=
  { tunnels := [], configs := [], nextID := 0 }

/-! ## The catch-all rule -/

/-- The rule list ends in a catch-all: it has a last rule, and that rule has an
empty `Hostname` and an empty `Path`. -/
def endsInCatchAll {ε : Type} (rules : List (IngressRule ε)) : Prop :=
  ∃ r, rules.getLast? = some r ∧ r.Hostname = "" ∧ r.Path = ""

/-! ## Concrete accounts used as examples -/

/-- The tunnel the in-memory account creates first for the name "web". -/
def webTunnel : Tunnel :=
  { ID := "tunnel-", Name := "web", Status := "inactive" }

/-- The account "acct" holding the one tunnel `webTunnel`. -/
def accountWithWeb : MemState Unit Unit :=
  { tunnels := [("acct", webTunnel)], configs := [], nextID := 1 }

/-- The strict in-memory client shared with a rival reconciler. -/
def raceClient : Client (MemState Unit Unit × Option (String × CreateTunnelParams)) Unit Unit :=
  withRival (memClient true)

/-- The empty account, with the rival about to create the tunnel "web" of "acct". -/
def raceStart : MemState Unit Unit × Option (String × CreateTunnelParams) :=
  (MemState.empty, some ("acct", { Name := "web", ConfigSrc := "cloudflare" }))

/-- The conflict error of the strict in-memory client. -/
def nameInUse : GoError :=
  GoError.remote true "tunnel name already in use"

/-- The remote API out of reach: every call fails with the same error and changes
nothing. -/
def downClient : Client Unit Unit Unit where
  GetTunnelByName := fun _ _ s => ((none, some (GoError.remote false "service unavailable")), s)
  CreateTunnel := fun _ _ s => ((none, some (GoError.remote false "service unavailable")), s)
  GetTunnel := fun _ _ s => ((none, some (GoError.remote false "service unavailable")), s)
  GetTunnelToken := fun _ _ s => (("", some (GoError.remote false "service unavailable")), s)
  UpdateTunnelConfiguration := fun _ _ _ s =>
    (some (GoError.remote false "service unavailable"), s)
  DeleteTunnelConnections := fun _ _ s => (some (GoError.remote false "service unavailable"), s)
  DeleteTunnel := fun _ _ s => (some (GoError.remote false "service unavailable"), s)

/-! ## Clients that normalise "not found" -/

/-- The contract, for the two deletion calls, of a client that normalises "not
found" to an absent result (spec 6 and 7), relative to a reading
`absent accountID tunnelID st` of "state `st` holds no such tunnel": on an
absent tunnel the deletion of connections changes nothing, the deletion of the
tunnel changes nothing and reports no error; and a tunnel deletion that
reports no error leaves the tunnel absent. -/
structure NormalisesNotFound {σ ε ρ : Type} (client : Client σ ε ρ)
    (absent : String → String → σ → Prop) : Prop where
  connections_absent : ∀ a t st, absent a t st →
    (client.DeleteTunnelConnections a t st).2 = st
  delete_absent : ∀ a t st, absent a t st → client.DeleteTunnel a t st = (none, st)
  delete_done : ∀ a t st, (client.DeleteTunnel a t st).1 = none →
    absent a t (client.DeleteTunnel a t st).2

/-- The in-memory account holds neither the tunnel `tunnelID` of `accountID` nor a
configuration written for it. -/
def MemState.absent {ε ρ : Type} (s : MemState ε ρ) (accountID tunnelID : String) : Bool :=
  s.tunnels.all (fun p => !MemState.identified accountID tunnelID p) &&
    s.configs.all (fun c => decide (c.1 ≠ (accountID, tunnelID)))

/-! ## The UDPRoute controller -/

/-- Modelled from the spec: `ctrl.Request` comes from controller-runtime and is not
declared under `src/`; `Reconcile` reads its `Name` and `Namespace`. -/
structure CtrlRequest where
  Namespace : String
  Name : String
  deriving DecidableEq, Repr

/-- Modelled from the spec: `ctrl.Result` comes from controller-runtime and is not
declared under `src/`: whether to requeue, and the requeue delay in
nanoseconds. The literal `ctrl.Result{}` is the zero value. -/
structure CtrlResult where
  Requeue : Bool
  RequeueAfter : Int
  deriving DecidableEq, Repr

/-- One operation on the cluster client (`client.Client` of controller-runtime),
with the namespace and name of its object. -/
inductive ClusterCall where
  | Get (ns name : String)
  | List (ns : String)
  | Create (ns name : String)
  | Update (ns name : String)
  | Patch (ns name : String)
  | Delete (ns name : String)
  | StatusUpdate (ns name : String)
  | StatusPatch (ns name : String)
  deriving DecidableEq, Repr

/-- The struct `UDPRouteReconciler` (udproute_controller.go 24-29): the embedded
cluster client, as the function performing a call on the cluster state `κ`,
and whether the feature gates report UDPRoute support (`Scheme` and
`Recorder` are unused by every method). -/
structure UDPRouteReconciler (κ : Type) where
  Client : ClusterCall → κ → κ
  FeatureGates : Option Bool

/-- What one `Reconcile` does: its Go results, the cluster state it leaves and the
cluster calls it made, in order. -/
structure ReconcileRun (κ : Type) where
  result : CtrlResult × Option GoError
  cluster : κ
  calls : List ClusterCall

/-- `UDPRouteReconciler.Reconcile` (udproute_controller.go 43-55): one debug log
line, then `return ctrl.Result{}, nil`. -/
def UDPRouteReconciler.Reconcile {κ : Type} (_r : UDPRouteReconciler κ)
    (_req : CtrlRequest) (cluster : κ) : ReconcileRun κ :=
  { result := ({ Requeue := false, RequeueAfter := 0 }, none),
    cluster := cluster,
    calls := [] }

/-! ## `EnsureTunnel` call by call, and two invocations interleaved -/

/-- Where an `EnsureTunnel` invocation stands between its client calls (the remote
calls are its only suspension points): before the lookup, before the create
(the lookup reported absent), or finished with its outcome. -/
inductive EnsurePoint where
  | atLookup
  | atCreate
  | finished (outcome : Exec (Option Tunnel × Bool × Option GoError))
  deriving DecidableEq, Repr

/-- The invocation has finished. -/
def EnsurePoint.isFinished : EnsurePoint → Bool
  | .finished _ => true
  | _ => false

/-- The number of client calls an invocation at this point can still make. -/
def EnsurePoint.callsLeft : EnsurePoint → Nat
  | .atLookup => 2
  | .atCreate => 1
  | .finished _ => 0

/-- `EnsureTunnel` (tunnel.go 31-67) advanced by one client call: from `atLookup` the
code of lines 38-49, from `atCreate` the code of lines 52-66. A finished
invocation does nothing. -/
def ensureStep {σ ε ρ : Type} (client : Client σ ε ρ) (accountID name : String)
    (p : EnsurePoint) (st : σ) : EnsurePoint × σ :=
  match p with
  | .atLookup =>
    match client.GetTunnelByName accountID name st with
    | ((existing, err), st1) =>
      match err with
      | some e =>
        (.finished (.ret (none, false,
          some (.wrapf "failed to check for existing tunnel" e))), st1)
      | none =>
        match existing with
        | some t => (.finished (.ret (some t, false, none)), st1)
        | none => (.atCreate, st1)
  | .atCreate =>
    match client.CreateTunnel accountID { Name := name, ConfigSrc := "cloudflare" } st with
    | ((tunnel, err2), st2) =>
      match err2 with
      | some e => (.finished (.ret (none, false, some (.wrapf "failed to create tunnel" e))), st2)
      | none =>
        match tunnel with
        | none => (.finished .nilDeref, st2)
        | some t => (.finished (.ret (some t, true, none)), st2)
  | .finished r => (.finished r, st)

/-- Which of two invocations in flight makes the next client call. -/
inductive Turn where
  | first
  | second
  deriving DecidableEq, Repr

/-- Two `EnsureTunnel` invocations in flight against one remote account. -/
structure TwoEnsures (σ : Type) where
  first : EnsurePoint
  second : EnsurePoint
  remote : σ
  deriving DecidableEq, Repr

/-- Two invocations with the same account id and name run under a schedule: each
turn lets one of them make its next client call on the shared remote state. -/
def interleave {σ ε ρ : Type} (client : Client σ ε ρ) (accountID name : String) :
    List Turn → TwoEnsures σ → TwoEnsures σ
  | [], w => w
  | Turn.first :: rest, w =>
    interleave client accountID name rest
      { first := (ensureStep client accountID name w.first w.remote).1,
        second := w.second,
        remote := (ensureStep client accountID name w.first w.remote).2 }
  | Turn.second :: rest, w =>
    interleave client accountID name rest
      { first := w.first,
        second := (ensureStep client accountID name w.second w.remote).1,
        remote := (ensureStep client accountID name w.second w.remote).2 }

/-- Both invocations about to start, on remote state `st`. -/
def TwoEnsures.start {σ : Type} (st : σ) : TwoEnsures σ :=
  { first := .atLookup, second := .atLookup, remote := st }

/-! ## Status conditions -/

/-- The status value of a condition (`metav1.ConditionStatus`): True, False, Unknown. -/
inductive ConditionStatus where
  | isTrue
  | isFalse
  | unknown
  deriving DecidableEq, Repr

/-- Modelled from the spec: the condition record of spec 3 (`metav1.Condition`, not
declared under `src/`): type, status, reason, message, last transition time
and observed generation. Times are clock readings. -/
structure Condition where
  CondType : String
  Status : ConditionStatus
  Reason : String
  Message : String
  LastTransitionTime : Nat
  ObservedGeneration : Int
  deriving DecidableEq, Repr

/-- `MaxConditionMessageLength` as the package doc gives it (status/doc.go 16). -/
def MaxConditionMessageLength : Nat := 32768

/-- Modelled from the spec: the truncation of a message to `MaxConditionMessageLength`
characters (status/doc.go 16); the code is not under `src/`. -/
def truncateMessage (msg : String) : String :=
  String.mk (msg.data.take MaxConditionMessageLength)

/-- Modelled from the spec: `FindCondition`, "lookup condition by type" (status/doc.go
26); the code is not under `src/`. -/
def FindCondition (conditions : List Condition) (condType : String) : Option Condition :=
  conditions.find? (fun c => decide (c.CondType = condType))

/-- The update as it is stored when it opens a new status value: the update
itself, its message truncated, its transition time stamped with the clock
reading `now`. -/
def stampCondition (now : Nat) (update : Condition) : Condition :=
  { update with Message := truncateMessage update.Message, LastTransitionTime := now }

/-- The entry an update leaves for its type, given the existing entry of that type
if there is one (spec 4.4): with the status value unchanged the existing
entry keeps its timestamp and only has reason and message refreshed; with the
status value changed, or with no existing entry, a new transition time is
stamped. -/
def resolveCondition (now : Nat) (existing : Option Condition) (update : Condition) :
    Condition :=
  match existing with
  | some c =>
    if c.Status = update.Status then
      { c with Reason := update.Reason, Message := truncateMessage update.Message }
    else
      stampCondition now update
  | none => stampCondition now update

/-- Modelled from the spec: one update merged into a condition list (spec 4.4); the code
of `MergeConditions` is not under `src/`. Entries of other types are passed
through; an update of a type not yet present is appended. A new list is
returned. -/
def mergeCondition (now : Nat) (conditions : List Condition) (update : Condition) :
    List Condition :=
  match FindCondition conditions update.CondType with
  | none => conditions ++ [stampCondition now update]
  | some _ =>
    conditions.map (fun c =>
      if c.CondType = update.CondType then resolveCondition now (some c) update else c)

/-- Modelled from the spec: `MergeConditions(existing, updates...)` (spec 4.4,
status/doc.go 14-17), whose code is not under `src/`: the updates merged one
after the other, at clock reading `now`. -/
def MergeConditions (now : Nat) (existing : List Condition) (updates : List Condition) :
    List Condition :=
  updates.foldl (mergeCondition now) existing

/-- An existing status: `Ready` true since time 10, `RecordsSynced` false since 5. -/
def conditionsBefore : List Condition :=
  [{ CondType := "Ready", Status := .isTrue, Reason := "Reconciled", Message := "ok",
     LastTransitionTime := 10, ObservedGeneration := 1 },
   { CondType := "RecordsSynced", Status := .isFalse, Reason := "Pending", Message := "waiting",
     LastTransitionTime := 5, ObservedGeneration := 1 }]

/-- Two updates: `Ready` still true with a new reason, `RecordsSynced` now true. -/
def conditionUpdates : List Condition :=
  [{ CondType := "Ready", Status := .isTrue, Reason := "StillReady", Message := "fine",
     LastTransitionTime := 0, ObservedGeneration := 2 },
   { CondType := "RecordsSynced", Status := .isTrue, Reason := "Synced", Message := "done",
     LastTransitionTime := 0, ObservedGeneration := 2 }]

/-! ## DNS lifecycle policy -/

/-- `DNSPolicy` (cloudflaredns_types.go 46-64): "sync", "upsert-only", "create-only". -/
inductive DNSPolicy where
  | DNSPolicySync
  | DNSPolicyUpsertOnly
  | DNSPolicyCreateOnly
  deriving DecidableEq, Repr

/-- The string value of each `DNSPolicy` constant (cloudflaredns_types.go 56-63). -/
def DNSPolicy.value : DNSPolicy → String
  | .DNSPolicySync => "sync"
  | .DNSPolicyUpsertOnly => "upsert-only"
  | .DNSPolicyCreateOnly => "create-only"

/-- Modelled from the spec: the classification `Verify` gives a remote record (spec 4.2):
owned by this installation, owned by another, or without marker. -/
inductive Ownership where
  | owned
  | foreign
  | unmarked
  deriving DecidableEq, Repr

/-- Modelled from the spec: a desired record of the reconciled set (spec 3, ManagedRecord):
its logical key and its desired content. -/
structure DesiredRecord where
  key : String
  content : String
  deriving DecidableEq, Repr

/-- Modelled from the spec: a record observed remotely, with its ownership as `Verify`
classifies it. -/
structure ObservedRecord where
  key : String
  content : String
  ownership : Ownership
  deriving DecidableEq, Repr

/-- A remote call of record reconciliation. -/
inductive RecordCall where
  | create (key content : String)
  | update (key content : String)
  | delete (key : String)
  deriving DecidableEq, Repr

/-- The call is a remote delete. -/
def RecordCall.isDelete : RecordCall → Bool
  | .delete _ => true
  | _ => false

/-- The call is a remote update. -/
def RecordCall.isUpdate : RecordCall → Bool
  | .update _ _ => true
  | _ => false

/-- Modelled from the spec: the remote calls of record reconciliation (spec 4.3, steps 1
and 2; the DNS service code is not under `src/`). For each desired key: absent
remotely, create; present but differing and owned or unmarked, update unless
the policy forbids updates (create-only). For each remote key that is not
desired: delete only if the policy allows deletion (sync) and the record is
owned. -/
def reconcileRecords (policy : DNSPolicy) (desired : List DesiredRecord)
    (observed : List ObservedRecord) : List RecordCall :=
  desired.filterMap (fun d =>
    match observed.find? (fun o => decide (o.key = d.key)) with
    | none => some (RecordCall.create d.key d.content)
    | some o =>
      if o.content ≠ d.content ∧ o.ownership ≠ Ownership.foreign ∧
          policy ≠ DNSPolicy.DNSPolicyCreateOnly then
        some (RecordCall.update d.key d.content)
      else none)
  ++ observed.filterMap (fun o =>
    if desired.all (fun d => decide (d.key ≠ o.key)) ∧ policy = DNSPolicy.DNSPolicySync ∧
        o.ownership = Ownership.owned then
      some (RecordCall.delete o.key)
    else none)

/-- Desired records: "a.example.com" with new content, "new.example.com". -/
def desiredRecords : List DesiredRecord :=
  [{ key := "a.example.com", content := "t2.cfargotunnel.com" },
   { key := "new.example.com", content := "t2.cfargotunnel.com" }]

/-- Remote records, all owned: "a.example.com" with old content, and
"old.example.com", which is no longer desired. -/
def observedRecords : List ObservedRecord :=
  [{ key := "a.example.com", content := "t1.cfargotunnel.com", ownership := .owned },
   { key := "old.example.com", content := "t1.cfargotunnel.com", ownership := .owned }]

/-! ## Counting client calls -/

/-- The operations of the `Client` interface that `tunnel.go` uses. -/
inductive Operation where
  | GetTunnelByName
  | CreateTunnel
  | GetTunnel
  | GetTunnelToken
  | UpdateTunnelConfiguration
  | DeleteTunnelConnections
  | DeleteTunnel
  deriving DecidableEq, Repr

/-- The operation a call is a call of. -/
def Call.operation {ε ρ : Type} : Call ε ρ → Operation
  | .GetTunnelByName _ _ => .GetTunnelByName
  | .CreateTunnel _ _ => .CreateTunnel
  | .GetTunnel _ _ => .GetTunnel
  | .GetTunnelToken _ _ => .GetTunnelToken
  | .UpdateTunnelConfiguration _ _ _ => .UpdateTunnelConfiguration
  | .DeleteTunnelConnections _ _ => .DeleteTunnelConnections
  | .DeleteTunnel _ _ => .DeleteTunnel

/-- How many times a list of calls calls the operation `op`. -/
def callCount {ε ρ : Type} (calls : List (Call ε ρ)) (op : Operation) : Nat :=
  (calls.map Call.operation).count op

/-- A configuration whose last rule has no hostname but a path: a path rule, not a
catch-all. -/
def pathRuleLast : TunnelConfiguration Unit Unit :=
  { Ingress := [{ Hostname := "a.example.com", Path := "", Service := "http://svc:80",
                  Extra := () },
                { Hostname := "", Path := "/api", Service := "http://api:80", Extra := () }],
    OriginRequest := none }

/-- A configuration with a hostname-less rule first and a host rule last. -/
def catchAllFirst : TunnelConfiguration Unit Unit :=
  { Ingress := [{ Hostname := "", Path := "", Service := "http://early:80", Extra := () },
                { Hostname := "b.example.com", Path := "", Service := "http://b:80",
                  Extra := () }],
    OriginRequest := some () }

/-- Two updates of the same type in one call: `RecordsSynced` true, then false. -/
def repeatedUpdates : List Condition :=
  [{ CondType := "RecordsSynced", Status := .isTrue, Reason := "Synced", Message := "done",
     LastTransitionTime := 0, ObservedGeneration := 2 },
   { CondType := "RecordsSynced", Status := .isFalse, Reason := "Lost", Message := "gone",
     LastTransitionTime := 0, ObservedGeneration := 3 }]

theorem get_last_index_concat {α : Type} (l : List α) (a : α)
    (h : (l ++ [a]).length - 1 < (l ++ [a]).length) :
    (l ++ [a]).get ⟨(l ++ [a]).length - 1, h⟩ = a := by
  have hlen : (l ++ [a]).length - 1 = l.length := by simp
  rw [List.get_eq_getElem]
  simp only [hlen]
  exact List.getElem_concat_length l a l.length rfl _

theorem ensureCatchAllRule_nil {ε ρ : Type} [Inhabited ε] (d : Option ρ) :
    ensureCatchAllRule ({ Ingress := [], OriginRequest := d } : TunnelConfiguration ε ρ)
      = { Ingress := [catchAllLiteral ε], OriginRequest := d } := by
  simp [ensureCatchAllRule]

theorem ensureCatchAllRule_concat {ε ρ : Type} [Inhabited ε]
    (l : List (IngressRule ε)) (a : IngressRule ε) (d : Option ρ) :
    ensureCatchAllRule ({ Ingress := l ++ [a], OriginRequest := d } : TunnelConfiguration ε ρ)
      = if a.Hostname = "" ∧ a.Path = "" then { Ingress := l ++ [a], OriginRequest := d }
        else { Ingress := l ++ [a] ++ [catchAllLiteral ε], OriginRequest := d } := by
  unfold ensureCatchAllRule
  have hne : ¬ (l ++ [a]).length = 0 := by simp
  simp only [hne, dite_false, get_last_index_concat]

theorem endsInCatchAll_concat {ε : Type} (l : List (IngressRule ε)) (a : IngressRule ε) :
    endsInCatchAll (l ++ [a]) ↔ (a.Hostname = "" ∧ a.Path = "") := by
  unfold endsInCatchAll
  constructor
  · rintro ⟨r, hr, h⟩
    rw [List.getLast?_concat] at hr
    cases hr
    exact h
  · intro h
    exact ⟨a, List.getLast?_concat l, h⟩

theorem not_endsInCatchAll_nil {ε : Type} : ¬ endsInCatchAll ([] : List (IngressRule ε)) := by
  rintro ⟨r, hr, _⟩
  simp at hr

theorem endsInCatchAll_catchAllLiteral {ε : Type} [Inhabited ε] (l : List (IngressRule ε)) :
    endsInCatchAll (l ++ [catchAllLiteral ε]) :=
  (endsInCatchAll_concat l _).2 ⟨rfl, rfl⟩

/-- The whole behaviour of `ensureCatchAllRule` in one equation: the configuration
is returned as it is when its rule list ends in a catch-all, and with the
literal catch-all appended otherwise. -/
theorem ensureCatchAllRule_eq {ε ρ : Type} [Inhabited ε] (config : TunnelConfiguration ε ρ) :
    (endsInCatchAll config.Ingress → ensureCatchAllRule config = config) ∧
    (¬ endsInCatchAll config.Ingress → ensureCatchAllRule config =
      { Ingress := config.Ingress ++ [catchAllLiteral ε],
        OriginRequest := config.OriginRequest }) := by
  obtain ⟨rules, d⟩ := config
  rcases List.eq_nil_or_concat rules with h | ⟨l, a, h⟩
  · subst h
    refine ⟨fun hc => absurd hc not_endsInCatchAll_nil, fun _ => ?_⟩
    simp [ensureCatchAllRule_nil]
  · subst h
    rw [List.concat_eq_append]
    constructor
    · intro hc
      rw [ensureCatchAllRule_concat, if_pos ((endsInCatchAll_concat l a).1 hc)]
    · intro hc
      rw [ensureCatchAllRule_concat,
        if_neg (fun h => hc ((endsInCatchAll_concat l a).2 h))]

/-! ## The runs of the service methods, by case of the client results -/

theorem updateConfiguration_calls {σ ε ρ : Type} [Inhabited ε]
    (client : Client σ ε ρ) (accountID tunnelID : String)
    (c : TunnelConfiguration ε ρ) (st : σ) :
    (UpdateConfiguration client accountID tunnelID c st).calls
      = [Call.UpdateTunnelConfiguration accountID tunnelID (ensureCatchAllRule c)] := by
  unfold UpdateConfiguration
  rcases hcall : client.UpdateTunnelConfiguration accountID tunnelID (ensureCatchAllRule c) st
    with ⟨err, st1⟩
  cases err <;> simp [hcall]

theorem ensureTunnel_run_found {σ ε ρ : Type} (client : Client σ ε ρ)
    (accountID name : String) (st st1 : σ) (t : Tunnel)
    (h : client.GetTunnelByName accountID name st = ((some t, none), st1)) :
    EnsureTunnel client accountID name st
      = ⟨Exec.ret (some t, false, none), st1, [Call.GetTunnelByName accountID name]⟩ := by
  unfold EnsureTunnel
  simp [h]

theorem ensureTunnel_run_created {σ ε ρ : Type} (client : Client σ ε ρ)
    (accountID name : String) (st st1 st2 : σ) (t : Tunnel)
    (hget : client.GetTunnelByName accountID name st = ((none, none), st1))
    (hcreate : client.CreateTunnel accountID { Name := name, ConfigSrc := "cloudflare" } st1
      = ((some t, none), st2)) :
    EnsureTunnel client accountID name st
      = ⟨Exec.ret (some t, true, none), st2,
          [Call.GetTunnelByName accountID name,
           Call.CreateTunnel accountID { Name := name, ConfigSrc := "cloudflare" }]⟩ := by
  unfold EnsureTunnel
  simp [hget, hcreate]

/-! ## `UpdateConfiguration` and the catch-all rule (claims C5 to C9) -/

/-- C5. `UpdateConfiguration` replaces the whole object: for every account id,
tunnel id and configuration `c` it makes exactly one client call,
`UpdateTunnelConfiguration` with the same account id and tunnel id and with the
configuration `ensureCatchAllRule c`; it leaves the remote state that call
leaves; and it returns no error if and only if that call returns no error (an
error of the call is returned wrapped). -/
theorem updateConfiguration_whole_object_replacement {σ ε ρ : Type} [Inhabited ε]
    (client : Client σ ε ρ) (accountID tunnelID : String)
    (c : TunnelConfiguration ε ρ) (st : σ) :
    (UpdateConfiguration client accountID tunnelID c st).calls
        = [Call.UpdateTunnelConfiguration accountID tunnelID (ensureCatchAllRule c)] ∧
    (UpdateConfiguration client accountID tunnelID c st).remote
        = (client.UpdateTunnelConfiguration accountID tunnelID (ensureCatchAllRule c) st).2 ∧
    (UpdateConfiguration client accountID tunnelID c st).result
        = Exec.ret (((client.UpdateTunnelConfiguration accountID tunnelID
            (ensureCatchAllRule c) st).1).map
              (GoError.wrapf "failed to update tunnel configuration")) ∧
    ((UpdateConfiguration client accountID tunnelID c st).result = Exec.ret none ↔
      (client.UpdateTunnelConfiguration accountID tunnelID (ensureCatchAllRule c) st).1
        = none) := by
  unfold UpdateConfiguration
  rcases hcall : client.UpdateTunnelConfiguration accountID tunnelID (ensureCatchAllRule c) st
    with ⟨err, st1⟩
  cases err <;> simp [hcall]

/-- C6. For a configuration with zero ingress rules, `ensureCatchAllRule` produces a
configuration with exactly one ingress rule, the catch-all with
`Service = "http_status:404"`, empty `Hostname` and empty `Path` (and the zero
value in every other field); that configuration is what `UpdateConfiguration`
sends to the client and what `BuildConfiguration` returns for an empty rule
list. -/
theorem ensureCatchAllRule_of_no_rules {σ ε ρ : Type} [Inhabited ε]
    (config : TunnelConfiguration ε ρ) (h : config.Ingress.length = 0)
    (client : Client σ ε ρ) (accountID tunnelID : String) (st : σ) :
    (ensureCatchAllRule config).Ingress
        = [{ Hostname := "", Path := "", Service := "http_status:404", Extra := default }] ∧
    (UpdateConfiguration client accountID tunnelID config st).calls
        = [Call.UpdateTunnelConfiguration accountID tunnelID
            { Ingress := [{ Hostname := "", Path := "", Service := "http_status:404",
                            Extra := default }],
              OriginRequest := config.OriginRequest }] ∧
    (BuildConfiguration [] config.OriginRequest : TunnelConfiguration ε ρ)
        = { Ingress := [{ Hostname := "", Path := "", Service := "http_status:404",
                          Extra := default }],
            OriginRequest := config.OriginRequest } := by
  obtain ⟨rules, d⟩ := config
  have hr : rules = [] := List.length_eq_zero.mp h
  subst hr
  refine ⟨?_, ?_, ?_⟩
  · rw [ensureCatchAllRule_nil]
    rfl
  · rw [updateConfiguration_calls, ensureCatchAllRule_nil]
    rfl
  · unfold BuildConfiguration
    rw [ensureCatchAllRule_nil]
    rfl

/-- Witness for C6: the empty configuration, sent through the in-memory client. -/
theorem ensureCatchAllRule_of_no_rules_witness :
    ({ Ingress := [], OriginRequest := none } : TunnelConfiguration Unit Unit).Ingress.length = 0 ∧
    (ensureCatchAllRule
        ({ Ingress := [], OriginRequest := none } : TunnelConfiguration Unit Unit)).Ingress
      = [{ Hostname := "", Path := "", Service := "http_status:404", Extra := () }] :=
  ⟨rfl, (ensureCatchAllRule_of_no_rules
    ({ Ingress := [], OriginRequest := none } : TunnelConfiguration Unit Unit) rfl
    (memClient true) "acct" "tunnel-" MemState.empty).1⟩

/-- C7. For every configuration whose last ingress rule is already a catch-all
(empty `Hostname` and empty `Path`), `ensureCatchAllRule` returns the
configuration unchanged: the same ingress rules in the same order, the same
length, nothing appended. -/
theorem ensureCatchAllRule_unchanged_of_catch_all_last {ε ρ : Type} [Inhabited ε]
    (config : TunnelConfiguration ε ρ) (h : endsInCatchAll config.Ingress) :
    ensureCatchAllRule config = config ∧
    (ensureCatchAllRule config).Ingress = config.Ingress ∧
    (ensureCatchAllRule config).Ingress.length = config.Ingress.length := by
  have heq := (ensureCatchAllRule_eq config).1 h
  rw [heq]
  exact ⟨rfl, rfl, rfl⟩

/-- Witness for C7: a host rule followed by a catch-all with a service of its own. -/
theorem ensureCatchAllRule_unchanged_of_catch_all_last_witness :
    endsInCatchAll
      ([⟨"a.example.com", "/api", "http://svc:80", ()⟩, ⟨"", "", "http://fallback:80", ()⟩] :
        List (IngressRule Unit)) ∧
    ensureCatchAllRule
      ({ Ingress := [⟨"a.example.com", "/api", "http://svc:80", ()⟩,
                     ⟨"", "", "http://fallback:80", ()⟩],
         OriginRequest := some () } : TunnelConfiguration Unit Unit)
      = { Ingress := [⟨"a.example.com", "/api", "http://svc:80", ()⟩,
                      ⟨"", "", "http://fallback:80", ()⟩],
          OriginRequest := some () } :=
  ⟨⟨_, rfl, rfl, rfl⟩,
   (ensureCatchAllRule_unchanged_of_catch_all_last
      ({ Ingress := [⟨"a.example.com", "/api", "http://svc:80", ()⟩,
                     ⟨"", "", "http://fallback:80", ()⟩],
         OriginRequest := some () } : TunnelConfiguration Unit Unit)
      ⟨_, rfl, rfl, rfl⟩).1⟩

/-- C8. For every input configuration, empty or not, the ingress list of the result
of `ensureCatchAllRule` is non-empty and its last rule is a catch-all (empty
`Hostname` and empty `Path`); hence the configuration of every
`UpdateTunnelConfiguration` call that `UpdateConfiguration` makes ends in a
catch-all. -/
theorem ensureCatchAllRule_ends_in_catch_all {σ ε ρ : Type} [Inhabited ε]
    (config : TunnelConfiguration ε ρ) :
    (ensureCatchAllRule config).Ingress ≠ [] ∧
    endsInCatchAll (ensureCatchAllRule config).Ingress ∧
    ∀ (client : Client σ ε ρ) (accountID tunnelID : String) (st : σ)
      (a t : String) (sent : TunnelConfiguration ε ρ),
      Call.UpdateTunnelConfiguration a t sent
          ∈ (UpdateConfiguration client accountID tunnelID config st).calls →
        sent.Ingress ≠ [] ∧ endsInCatchAll sent.Ingress := by
  have hends : endsInCatchAll (ensureCatchAllRule config).Ingress := by
    by_cases hc : endsInCatchAll config.Ingress
    · rw [(ensureCatchAllRule_eq config).1 hc]
      exact hc
    · rw [(ensureCatchAllRule_eq config).2 hc]
      exact endsInCatchAll_catchAllLiteral _
  have hne : (ensureCatchAllRule config).Ingress ≠ [] := by
    intro hnil
    rw [hnil] at hends
    exact not_endsInCatchAll_nil hends
  refine ⟨hne, hends, ?_⟩
  intro client accountID tunnelID st a t sent hmem
  rw [updateConfiguration_calls] at hmem
  simp only [List.mem_singleton, Call.UpdateTunnelConfiguration.injEq] at hmem
  obtain ⟨_, _, hsent⟩ := hmem
  subst hsent
  exact ⟨hne, hends⟩

/-- C9. For every rule list `rules` and defaults `d`, `BuildConfiguration rules d` is
`ensureCatchAllRule` applied to the configuration with `Ingress = rules` and
`OriginRequest = d`: its `OriginRequest` is `d`, its ingress list starts with
`rules` in order, and the catch-all rule is added at the end exactly when
`rules` does not already end with one (otherwise the list is `rules`). -/
theorem buildConfiguration_eq_ensureCatchAllRule {ε ρ : Type} [Inhabited ε]
    (rules : List (IngressRule ε)) (d : Option ρ) :
    BuildConfiguration rules d
        = ensureCatchAllRule { Ingress := rules, OriginRequest := d } ∧
    (BuildConfiguration rules d).OriginRequest = d ∧
    rules <+: (BuildConfiguration rules d).Ingress ∧
    ((BuildConfiguration rules d).Ingress = rules ++ [catchAllLiteral ε]
        ↔ ¬ endsInCatchAll rules) ∧
    ((BuildConfiguration rules d).Ingress = rules ↔ endsInCatchAll rules) := by
  have hyes := (ensureCatchAllRule_eq
    ({ Ingress := rules, OriginRequest := d } : TunnelConfiguration ε ρ)).1
  have hno := (ensureCatchAllRule_eq
    ({ Ingress := rules, OriginRequest := d } : TunnelConfiguration ε ρ)).2
  refine ⟨rfl, ?_⟩
  unfold BuildConfiguration
  by_cases hc : endsInCatchAll rules
  · rw [hyes hc]
    refine ⟨rfl, List.prefix_refl _, ?_, ?_⟩
    · constructor
      · intro h
        have hlen := congrArg List.length h
        simp at hlen
      · intro h
        exact absurd hc h
    · exact ⟨fun _ => hc, fun _ => rfl⟩
  · rw [hno hc]
    refine ⟨rfl, List.prefix_append _ _, ?_, ?_⟩
    · exact ⟨fun _ => hc, fun _ => rfl⟩
    · constructor
      · intro h
        have hlen := congrArg List.length h
        simp at hlen
      · intro h
        exact absurd h hc

/-! ## `Delete` (claim C10) -/

/-- C10. `Delete` is a best-effort cascade: for every account id and tunnel id it
makes exactly two client calls, first `DeleteTunnelConnections` and then
`DeleteTunnel`, both with the same ids, the second on the remote state the
first leaves; this holds whatever `DeleteTunnelConnections` returns, so
`DeleteTunnel` is still called, exactly once, when `DeleteTunnelConnections`
returns an error. -/
theorem delete_cascade_calls {σ ε ρ : Type} (client : Client σ ε ρ)
    (accountID tunnelID : String) (st : σ) :
    (Delete client accountID tunnelID st).calls
        = [Call.DeleteTunnelConnections accountID tunnelID,
           Call.DeleteTunnel accountID tunnelID] ∧
    (Delete client accountID tunnelID st).remote
        = (client.DeleteTunnel accountID tunnelID
            (client.DeleteTunnelConnections accountID tunnelID st).2).2 ∧
    (∀ e : GoError, (client.DeleteTunnelConnections accountID tunnelID st).1 = some e →
      ((Delete client accountID tunnelID st).calls.filter Call.isDeleteTunnel)
        = [Call.DeleteTunnel accountID tunnelID]) := by
  unfold Delete
  rcases h1 : client.DeleteTunnelConnections accountID tunnelID st with ⟨err1, st1⟩
  rcases h2 : client.DeleteTunnel accountID tunnelID st1 with ⟨err2, st2⟩
  cases err2 <;> simp [h2, Call.isDeleteTunnel]

/-! ## `EnsureTunnel` (claims C1 to C4) -/

/-- C1. Adoption: for every account id and name, if the lookup `GetTunnelByName`
returns an existing tunnel `t` without error, then `EnsureTunnel` returns
exactly `t`, `created = false` and no error; the lookup is the only client call
it makes, so it makes no `CreateTunnel` call and no other mutating call, and it
leaves the remote state the lookup leaves. -/
theorem ensureTunnel_adopts_existing {σ ε ρ : Type} (client : Client σ ε ρ)
    (accountID name : String) (st st1 : σ) (t : Tunnel)
    (h : client.GetTunnelByName accountID name st = ((some t, none), st1)) :
    (EnsureTunnel client accountID name st).result = Exec.ret (some t, false, none) ∧
    (EnsureTunnel client accountID name st).calls = [Call.GetTunnelByName accountID name] ∧
    (EnsureTunnel client accountID name st).remote = st1 ∧
    (∀ c ∈ (EnsureTunnel client accountID name st).calls,
      c.isCreateTunnel = false ∧ c.isMutating = false) := by
  unfold EnsureTunnel
  simp [h, Call.isCreateTunnel, Call.isMutating]

/-- C2. Creation: for every account id and name, if `GetTunnelByName` returns absent
(nil, no error) and `CreateTunnel`, called with the same account id and with
parameters `Name = name` and `ConfigSrc = "cloudflare"`, succeeds with tunnel
`t`, then `EnsureTunnel` returns `(t, created = true, no error)`; its client
calls are the lookup followed by that one `CreateTunnel`. -/
theorem ensureTunnel_creates_when_absent {σ ε ρ : Type} (client : Client σ ε ρ)
    (accountID name : String) (st st1 st2 : σ) (t : Tunnel)
    (hget : client.GetTunnelByName accountID name st = ((none, none), st1))
    (hcreate : client.CreateTunnel accountID { Name := name, ConfigSrc := "cloudflare" } st1
      = ((some t, none), st2)) :
    (EnsureTunnel client accountID name st).result = Exec.ret (some t, true, none) ∧
    (EnsureTunnel client accountID name st).calls
      = [Call.GetTunnelByName accountID name,
         Call.CreateTunnel accountID { Name := name, ConfigSrc := "cloudflare" }] ∧
    (EnsureTunnel client accountID name st).calls.filter Call.isCreateTunnel
      = [Call.CreateTunnel accountID { Name := name, ConfigSrc := "cloudflare" }] ∧
    (EnsureTunnel client accountID name st).remote = st2 := by
  unfold EnsureTunnel
  simp [hget, hcreate, Call.isCreateTunnel]

/-- C4, as the code has it. If `GetTunnelByName` returns absent and the following
`CreateTunnel` fails with an error `e`, a creation conflict or any other,
`EnsureTunnel` does not query again: its client calls are the lookup and the
one `CreateTunnel`, and it returns `(nil, created = false, error)` where the
error wraps `e` under the text "failed to create tunnel". -/
theorem ensureTunnel_create_error_is_returned {σ ε ρ : Type} (client : Client σ ε ρ)
    (accountID name : String) (st st1 st2 : σ) (x : Option Tunnel) (e : GoError)
    (hget : client.GetTunnelByName accountID name st = ((none, none), st1))
    (hcreate : client.CreateTunnel accountID { Name := name, ConfigSrc := "cloudflare" } st1
      = ((x, some e), st2)) :
    (EnsureTunnel client accountID name st).result
      = Exec.ret (none, false, some (GoError.wrapf "failed to create tunnel" e)) ∧
    (EnsureTunnel client accountID name st).calls
      = [Call.GetTunnelByName accountID name,
         Call.CreateTunnel accountID { Name := name, ConfigSrc := "cloudflare" }] ∧
    (EnsureTunnel client accountID name st).remote = st2 := by
  unfold EnsureTunnel
  simp [hget, hcreate]

/-- Witness for C1: the account that already holds "web". -/
theorem ensureTunnel_adopts_existing_witness :
    (memClient true).GetTunnelByName "acct" "web" accountWithWeb
      = ((some webTunnel, none), accountWithWeb) ∧
    (EnsureTunnel (memClient true) "acct" "web" accountWithWeb).result
      = Exec.ret (some webTunnel, false, none) :=
  ⟨rfl, (ensureTunnel_adopts_existing (memClient true) "acct" "web"
    accountWithWeb accountWithWeb webTunnel rfl).1⟩

/-- Witness for C2: the empty account. -/
theorem ensureTunnel_creates_when_absent_witness :
    (memClient true).GetTunnelByName "acct" "web" (MemState.empty : MemState Unit Unit)
      = ((none, none), MemState.empty) ∧
    (memClient true).CreateTunnel "acct" { Name := "web", ConfigSrc := "cloudflare" }
        (MemState.empty : MemState Unit Unit)
      = ((some webTunnel, none), accountWithWeb) ∧
    (EnsureTunnel (memClient true) "acct" "web" (MemState.empty : MemState Unit Unit)).result
      = Exec.ret (some webTunnel, true, none) :=
  ⟨rfl, rfl, (ensureTunnel_creates_when_absent (memClient true) "acct" "web"
    MemState.empty MemState.empty accountWithWeb webTunnel rfl rfl).1⟩

/-- Counterexample for C4. Over the strict in-memory account with a rival: the
lookup reports absent, the rival creates "web", the create of `EnsureTunnel`
fails with the conflict error, a lookup by name in the state `EnsureTunnel`
leaves finds the tunnel of the rival, and yet `EnsureTunnel` has returned the
wrapped conflict error and not that tunnel with `created = false`. -/
theorem ensureTunnel_create_conflict_not_adopted :
    (raceClient.GetTunnelByName "acct" "web" raceStart).1 = (none, none) ∧
    (raceClient.CreateTunnel "acct" { Name := "web", ConfigSrc := "cloudflare" }
        (raceClient.GetTunnelByName "acct" "web" raceStart).2).1 = (none, some nameInUse) ∧
    (raceClient.GetTunnelByName "acct" "web"
        (EnsureTunnel raceClient "acct" "web" raceStart).remote).1 = (some webTunnel, none) ∧
    (EnsureTunnel raceClient "acct" "web" raceStart).result
      = Exec.ret (none, false, some (GoError.wrapf "failed to create tunnel" nameInUse)) ∧
    (EnsureTunnel raceClient "acct" "web" raceStart).result
      ≠ Exec.ret (some webTunnel, false, none) := by
  decide

/-- Witness for C4 as the code has it: the same race. -/
theorem ensureTunnel_create_error_is_returned_witness :
    raceClient.GetTunnelByName "acct" "web" raceStart = ((none, none), (accountWithWeb, none)) ∧
    raceClient.CreateTunnel "acct" { Name := "web", ConfigSrc := "cloudflare" }
        (accountWithWeb, none) = ((none, some nameInUse), (accountWithWeb, none)) ∧
    (EnsureTunnel raceClient "acct" "web" raceStart).calls
      = [Call.GetTunnelByName "acct" "web",
         Call.CreateTunnel "acct" { Name := "web", ConfigSrc := "cloudflare" }] :=
  ⟨rfl, rfl, (ensureTunnel_create_error_is_returned raceClient "acct" "web"
    raceStart (accountWithWeb, none) (accountWithWeb, none) none nameInUse rfl rfl).2.1⟩

/-! ## Sequential idempotence over the in-memory account (claim C3) -/

theorem memClient_lookup {ε ρ : Type} (strict : Bool) (accountID name : String)
    (s : MemState ε ρ) :
    (memClient strict).GetTunnelByName accountID name s
      = (((s.tunnels.find? (MemState.named accountID name)).map Prod.snd, none), s) :=
  rfl

theorem memClient_create_fresh {ε ρ : Type} (strict : Bool) (accountID : String)
    (params : CreateTunnelParams) (s : MemState ε ρ)
    (h : s.tunnels.find? (MemState.named accountID params.Name) = none) :
    (memClient strict).CreateTunnel accountID params s
      = ((some { ID := MemState.freshID s.nextID, Name := params.Name, Status := "inactive" },
          none),
         { s with
           tunnels := s.tunnels ++ [(accountID,
             { ID := MemState.freshID s.nextID, Name := params.Name, Status := "inactive" })],
           nextID := s.nextID + 1 }) := by
  have hany : s.tunnels.any (MemState.named accountID params.Name) = false := by
    rw [List.any_eq_false]
    intro x hx
    have := List.find?_eq_none.mp h x hx
    simpa using this
  simp [memClient, hany]

theorem count_of_find_some {ε ρ : Type} (s : MemState ε ρ) (accountID name : String)
    (p : String × Tunnel) (hle : s.count accountID name ≤ 1)
    (h : s.tunnels.find? (MemState.named accountID name) = some p) :
    s.count accountID name = 1 := by
  have hmem : p ∈ s.tunnels.filter (MemState.named accountID name) :=
    List.mem_filter.mpr ⟨List.mem_of_find?_eq_some h, List.find?_some h⟩
  have hpos : 0 < (s.tunnels.filter (MemState.named accountID name)).length :=
    List.length_pos_of_mem hmem
  unfold MemState.count at hle ⊢
  omega

theorem count_of_find_none {ε ρ : Type} (s : MemState ε ρ) (accountID name : String)
    (h : s.tunnels.find? (MemState.named accountID name) = none) :
    s.count accountID name = 0 := by
  unfold MemState.count
  rw [List.length_eq_zero, List.filter_eq_nil_iff]
  intro x hx
  exact List.find?_eq_none.mp h x hx

/-- C3. Sequential idempotence of `EnsureTunnel` over the in-memory client
(`CreateTunnel` stores the new tunnel, `GetTunnelByName` returns the stored
tunnel with that name; with or without the refusal of duplicate names). From
every account state holding at most one tunnel of the name (the empty account
included), two successive `EnsureTunnel` calls with the same account id and
name both succeed and return the same tunnel `t`; the second returns
`created = false`, makes the lookup as its only client call and leaves the
account as the first call left it; and the account then holds exactly one
tunnel with that name. The first call reports `created = true` exactly when no
tunnel of the name was there. -/
theorem ensureTunnel_twice_one_tunnel {ε ρ : Type} (strict : Bool)
    (accountID name : String) (s : MemState ε ρ)
    (h : s.count accountID name ≤ 1) :
    ∃ (t : Tunnel) (created : Bool),
      (EnsureTunnel (memClient strict) accountID name s).result
        = Exec.ret (some t, created, none) ∧
      (created = true ↔ s.count accountID name = 0) ∧
      (EnsureTunnel (memClient strict) accountID name
          (EnsureTunnel (memClient strict) accountID name s).remote).result
        = Exec.ret (some t, false, none) ∧
      (EnsureTunnel (memClient strict) accountID name
          (EnsureTunnel (memClient strict) accountID name s).remote).calls
        = [Call.GetTunnelByName accountID name] ∧
      (EnsureTunnel (memClient strict) accountID name
          (EnsureTunnel (memClient strict) accountID name s).remote).remote
        = (EnsureTunnel (memClient strict) accountID name s).remote ∧
      (EnsureTunnel (memClient strict) accountID name
          (EnsureTunnel (memClient strict) accountID name s).remote).remote.count
            accountID name = 1 := by
  cases hf : s.tunnels.find? (MemState.named accountID name) with
  | some p =>
    have hget : (memClient strict).GetTunnelByName accountID name s
        = ((some p.2, none), s) := by
      rw [memClient_lookup, hf]
      rfl
    have hrun := ensureTunnel_run_found (memClient strict) accountID name s s p.2 hget
    have hcount := count_of_find_some s accountID name p h hf
    refine ⟨p.2, false, by rw [hrun], ?_, ?_⟩
    · simp [hcount]
    · rw [hrun]
      simp only
      rw [hrun]
      exact ⟨rfl, rfl, rfl, hcount⟩
  | none =>
    have hget : (memClient strict).GetTunnelByName accountID name s
        = ((none, none), s) := by
      rw [memClient_lookup, hf]
      rfl
    have hcreate := memClient_create_fresh strict accountID
      { Name := name, ConfigSrc := "cloudflare" } s hf
    have hrun := ensureTunnel_run_created (memClient strict)
      accountID name s s _ _ hget hcreate
    have hcount := count_of_find_none s accountID name hf
    have hnamed : MemState.named accountID name
        (accountID, ({ ID := MemState.freshID s.nextID, Name := name,
                       Status := "inactive" } : Tunnel)) = true := by
      simp [MemState.named]
    have hget2 : ∀ s2 : MemState ε ρ,
        s2.tunnels = s.tunnels ++ [(accountID,
          ({ ID := MemState.freshID s.nextID, Name := name,
             Status := "inactive" } : Tunnel))] →
        (memClient strict).GetTunnelByName accountID name s2
          = ((some { ID := MemState.freshID s.nextID, Name := name, Status := "inactive" },
              none), s2) := by
      intro s2 hs2
      rw [memClient_lookup, hs2]
      simp [List.find?_append, hf, hnamed]
    have hrun2 := ensureTunnel_run_found (memClient strict) accountID name _ _ _
      (hget2 { s with
               tunnels := s.tunnels ++ [(accountID,
                 ({ ID := MemState.freshID s.nextID, Name := name,
                    Status := "inactive" } : Tunnel))],
               nextID := s.nextID + 1 } rfl)
    refine ⟨_, true, by rw [hrun], ?_, ?_⟩
    · simp [hcount]
    · rw [hrun]
      simp only
      rw [hrun2]
      refine ⟨rfl, rfl, rfl, ?_⟩
      unfold MemState.count at hcount ⊢
      simp only [List.filter_append, List.length_append, hcount]
      simp [hnamed]

/-- Witness for C3: two calls from the empty account, over the client that stores
every create. -/
theorem ensureTunnel_twice_one_tunnel_witness :
    (MemState.empty : MemState Unit Unit).count "acct" "web" ≤ 1 ∧
    ∃ (t : Tunnel) (created : Bool),
      (EnsureTunnel (memClient false) "acct" "web"
          (MemState.empty : MemState Unit Unit)).result
        = Exec.ret (some t, created, none) ∧
      (created = true ↔ (MemState.empty : MemState Unit Unit).count "acct" "web" = 0) ∧
      (EnsureTunnel (memClient false) "acct" "web"
          (EnsureTunnel (memClient false) "acct" "web"
            (MemState.empty : MemState Unit Unit)).remote).result
        = Exec.ret (some t, false, none) ∧
      (EnsureTunnel (memClient false) "acct" "web"
          (EnsureTunnel (memClient false) "acct" "web"
            (MemState.empty : MemState Unit Unit)).remote).calls
        = [Call.GetTunnelByName "acct" "web"] ∧
      (EnsureTunnel (memClient false) "acct" "web"
          (EnsureTunnel (memClient false) "acct" "web"
            (MemState.empty : MemState Unit Unit)).remote).remote
        = (EnsureTunnel (memClient false) "acct" "web"
            (MemState.empty : MemState Unit Unit)).remote ∧
      (EnsureTunnel (memClient false) "acct" "web"
          (EnsureTunnel (memClient false) "acct" "web"
            (MemState.empty : MemState Unit Unit)).remote).remote.count "acct" "web" = 1 :=
  ⟨by decide, ensureTunnel_twice_one_tunnel false "acct" "web" MemState.empty (by decide)⟩

/-! ## `Delete`, `IsHealthy`, `EnsureTunnel` failures, `TunnelDomain` (claims C11, C13 to C16) -/

theorem GoError.wraps_self (e : GoError) : e.wraps e = true := by
  cases e <;> simp [GoError.wraps]

theorem GoError.wrapf_wraps (text : String) (e : GoError) :
    (GoError.wrapf text e).wraps e = true := by
  simp [GoError.wraps, GoError.wraps_self]

theorem delete_run {σ ε ρ : Type} (client : Client σ ε ρ)
    (accountID tunnelID : String) (st : σ) :
    Delete client accountID tunnelID st
      = ⟨Exec.ret (((client.DeleteTunnel accountID tunnelID
            (client.DeleteTunnelConnections accountID tunnelID st).2).1).map
              (GoError.wrapf "failed to delete tunnel")),
         (client.DeleteTunnel accountID tunnelID
            (client.DeleteTunnelConnections accountID tunnelID st).2).2,
         [Call.DeleteTunnelConnections accountID tunnelID,
          Call.DeleteTunnel accountID tunnelID]⟩ := by
  unfold Delete
  rcases h1 : client.DeleteTunnelConnections accountID tunnelID st with ⟨err1, st1⟩
  rcases h2 : client.DeleteTunnel accountID tunnelID st1 with ⟨err2, st2⟩
  cases err2 <;> simp [h2]

/-- C11. `Delete` returns an error if and only if the `DeleteTunnel` client call
returns one: its result is the result of `DeleteTunnel` (made on the state
`DeleteTunnelConnections` leaves), wrapped under "failed to delete tunnel" when
it is an error. In particular, when `DeleteTunnelConnections` fails and
`DeleteTunnel` succeeds, `Delete` returns no error; and the result is the same
for every result of `DeleteTunnelConnections` that leaves the same remote
state, so the connection-deletion error is no part of it. -/
theorem delete_error_iff_deleteTunnel_error {σ ε ρ : Type} (client : Client σ ε ρ)
    (accountID tunnelID : String) (st : σ) :
    (Delete client accountID tunnelID st).result
        = Exec.ret (((client.DeleteTunnel accountID tunnelID
            (client.DeleteTunnelConnections accountID tunnelID st).2).1).map
              (GoError.wrapf "failed to delete tunnel")) ∧
    ((Delete client accountID tunnelID st).result = Exec.ret none ↔
      (client.DeleteTunnel accountID tunnelID
        (client.DeleteTunnelConnections accountID tunnelID st).2).1 = none) ∧
    (∀ e1 : GoError,
      (client.DeleteTunnelConnections accountID tunnelID st).1 = some e1 →
      (client.DeleteTunnel accountID tunnelID
        (client.DeleteTunnelConnections accountID tunnelID st).2).1 = none →
      (Delete client accountID tunnelID st).result = Exec.ret none) ∧
    (∀ (other : Client σ ε ρ),
      other.DeleteTunnel = client.DeleteTunnel →
      (other.DeleteTunnelConnections accountID tunnelID st).2
        = (client.DeleteTunnelConnections accountID tunnelID st).2 →
      (Delete other accountID tunnelID st).result
        = (Delete client accountID tunnelID st).result) := by
  rw [delete_run]
  refine ⟨rfl, ?_, ?_, ?_⟩
  · cases (client.DeleteTunnel accountID tunnelID
      (client.DeleteTunnelConnections accountID tunnelID st).2).1 <;> simp
  · intro e1 _ h2
    simp [h2]
  · intro other hsame hstate
    rw [delete_run, hsame, hstate]

/-- C13. For every account id and tunnel id for which `GetTunnel` returns a tunnel `t`
without error, `IsHealthy` returns `(h, no error)` where `h` is true if and only
if `t.Status` is exactly "healthy" or exactly "active"; in particular the empty
status and the capitalised "Healthy" and "ACTIVE" give false. `GetTunnel` is the
only client call made. -/
theorem isHealthy_iff_status_healthy_or_active {σ ε ρ : Type} (client : Client σ ε ρ)
    (accountID tunnelID : String) (st st1 : σ) (t : Tunnel)
    (h : client.GetTunnel accountID tunnelID st = ((some t, none), st1)) :
    ∃ healthy : Bool,
      (IsHealthy client accountID tunnelID st).result = Exec.ret (healthy, none) ∧
      (healthy = true ↔ (t.Status = "healthy" ∨ t.Status = "active")) ∧
      (t.Status = "" → healthy = false) ∧
      (t.Status = "Healthy" → healthy = false) ∧
      (t.Status = "ACTIVE" → healthy = false) ∧
      (IsHealthy client accountID tunnelID st).calls = [Call.GetTunnel accountID tunnelID] ∧
      (IsHealthy client accountID tunnelID st).remote = st1 := by
  refine ⟨t.Status == "healthy" || t.Status == "active", ?_, ?_, ?_, ?_, ?_, ?_, ?_⟩
  · unfold IsHealthy
    simp [h]
  · simp
  · intro hs
    rw [hs]
    decide
  · intro hs
    rw [hs]
    decide
  · intro hs
    rw [hs]
    decide
  · unfold IsHealthy
    simp [h]
  · unfold IsHealthy
    simp [h]

/-- Witness for C13: the account holding "web", whose status is "inactive". -/
theorem isHealthy_iff_status_healthy_or_active_witness :
    (memClient true).GetTunnel "acct" "tunnel-" accountWithWeb
      = ((some webTunnel, none), accountWithWeb) ∧
    ∃ healthy : Bool,
      (IsHealthy (memClient true) "acct" "tunnel-" accountWithWeb).result
        = Exec.ret (healthy, none) ∧
      (healthy = true ↔ (webTunnel.Status = "healthy" ∨ webTunnel.Status = "active")) ∧
      (webTunnel.Status = "" → healthy = false) ∧
      (webTunnel.Status = "Healthy" → healthy = false) ∧
      (webTunnel.Status = "ACTIVE" → healthy = false) ∧
      (IsHealthy (memClient true) "acct" "tunnel-" accountWithWeb).calls
        = [Call.GetTunnel "acct" "tunnel-"] ∧
      (IsHealthy (memClient true) "acct" "tunnel-" accountWithWeb).remote = accountWithWeb :=
  ⟨rfl, isHealthy_iff_status_healthy_or_active (memClient true) "acct" "tunnel-"
    accountWithWeb accountWithWeb webTunnel rfl⟩

/-- C14. If `GetTunnel` reports the tunnel as absent (nil tunnel, no error), `IsHealthy`
returns false with no error; `GetTunnel` is the only client call made. -/
theorem isHealthy_absent_is_false_without_error {σ ε ρ : Type} (client : Client σ ε ρ)
    (accountID tunnelID : String) (st st1 : σ)
    (h : client.GetTunnel accountID tunnelID st = ((none, none), st1)) :
    (IsHealthy client accountID tunnelID st).result = Exec.ret (false, none) ∧
    (IsHealthy client accountID tunnelID st).calls = [Call.GetTunnel accountID tunnelID] ∧
    (IsHealthy client accountID tunnelID st).remote = st1 := by
  unfold IsHealthy
  simp [h]

/-- Witness for C14: the empty account. -/
theorem isHealthy_absent_is_false_without_error_witness :
    (memClient true).GetTunnel "acct" "tunnel-" (MemState.empty : MemState Unit Unit)
      = ((none, none), MemState.empty) ∧
    (IsHealthy (memClient true) "acct" "tunnel-" (MemState.empty : MemState Unit Unit)).result
      = Exec.ret (false, none) :=
  ⟨rfl, (isHealthy_absent_is_false_without_error (memClient true) "acct" "tunnel-"
    MemState.empty MemState.empty rfl).1⟩

/-- C15. Failure behaviour of `EnsureTunnel`. If `GetTunnelByName` returns an error
`e`, whatever tunnel comes with it, `EnsureTunnel` returns `(nil, false, error)`
with an error that wraps `e`, and the lookup is its only client call, so no
`CreateTunnel` is made. If the lookup reports absent and `CreateTunnel` returns
an error `e`, `EnsureTunnel` returns `(nil, false, error)` with an error that
wraps `e`. And whenever `EnsureTunnel` returns `created = true`, the error is
nil and the tunnel is not nil. -/
theorem ensureTunnel_failure_behaviour {σ ε ρ : Type} (client : Client σ ε ρ)
    (accountID name : String) (st : σ) :
    (∀ (x : Option Tunnel) (e : GoError) (st1 : σ),
      client.GetTunnelByName accountID name st = ((x, some e), st1) →
      (EnsureTunnel client accountID name st).result
          = Exec.ret (none, false,
              some (GoError.wrapf "failed to check for existing tunnel" e)) ∧
      (GoError.wrapf "failed to check for existing tunnel" e).wraps e = true ∧
      (EnsureTunnel client accountID name st).calls = [Call.GetTunnelByName accountID name] ∧
      (EnsureTunnel client accountID name st).calls.filter Call.isCreateTunnel = []) ∧
    (∀ (x : Option Tunnel) (e : GoError) (st1 st2 : σ),
      client.GetTunnelByName accountID name st = ((none, none), st1) →
      client.CreateTunnel accountID { Name := name, ConfigSrc := "cloudflare" } st1
          = ((x, some e), st2) →
      (EnsureTunnel client accountID name st).result
          = Exec.ret (none, false, some (GoError.wrapf "failed to create tunnel" e)) ∧
      (GoError.wrapf "failed to create tunnel" e).wraps e = true) ∧
    (∀ (tunnel : Option Tunnel) (created : Bool) (err : Option GoError),
      (EnsureTunnel client accountID name st).result = Exec.ret (tunnel, created, err) →
      created = true → err = none ∧ ∃ t, tunnel = some t) := by
  refine ⟨?_, ?_, ?_⟩
  · intro x e st1 h
    refine ⟨?_, GoError.wrapf_wraps _ e, ?_, ?_⟩ <;>
      (unfold EnsureTunnel; simp [h, Call.isCreateTunnel])
  · intro x e st1 st2 hget hcreate
    refine ⟨?_, GoError.wrapf_wraps _ e⟩
    unfold EnsureTunnel
    simp [hget, hcreate]
  · intro tunnel created err hres hcreated
    unfold EnsureTunnel at hres
    rcases hget : client.GetTunnelByName accountID name st with ⟨⟨existing, err1⟩, st1⟩
    rw [hget] at hres
    cases err1 with
    | some e => simp at hres; rw [hcreated] at hres; simp at hres
    | none =>
      cases existing with
      | some t => simp at hres; rw [hcreated] at hres; simp at hres
      | none =>
        rcases hcreate : client.CreateTunnel accountID
          { Name := name, ConfigSrc := "cloudflare" } st1 with ⟨⟨made, err2⟩, st2⟩
        simp only [hcreate] at hres
        cases err2 with
        | some e => simp at hres; rw [hcreated] at hres; simp at hres
        | none =>
          cases made with
          | none => simp at hres
          | some t =>
            simp at hres
            exact ⟨hres.2.2.symm, t, hres.1.symm⟩

/-- Witness for C15: the remote API out of reach. -/
theorem ensureTunnel_failure_behaviour_witness :
    (EnsureTunnel downClient "acct" "web" ()).result
      = Exec.ret (none, false,
          some (GoError.wrapf "failed to check for existing tunnel"
            (GoError.remote false "service unavailable"))) ∧
    (EnsureTunnel downClient "acct" "web" ()).calls = [Call.GetTunnelByName "acct" "web"] :=
  ⟨((ensureTunnel_failure_behaviour downClient "acct" "web" ()).1 none
      (GoError.remote false "service unavailable") () rfl).1,
   ((ensureTunnel_failure_behaviour downClient "acct" "web" ()).1 none
      (GoError.remote false "service unavailable") () rfl).2.2.1⟩

/-- C16. For every tunnel id, `TunnelDomain id` is exactly the id followed by the
suffix ".cfargotunnel.com": it is that concatenation, character for character,
its length is the length of the id plus 17, and two ids with the same domain
are the same id. -/
theorem tunnelDomain_is_id_with_suffix (tunnelID : String) :
    TunnelDomain tunnelID = tunnelID ++ ".cfargotunnel.com" ∧
    (TunnelDomain tunnelID).data = tunnelID.data ++ ".cfargotunnel.com".data ∧
    (TunnelDomain tunnelID).length = tunnelID.length + 17 ∧
    (∀ other : String, TunnelDomain other = TunnelDomain tunnelID → other = tunnelID) := by
  refine ⟨rfl, ?_, ?_, ?_⟩
  · simp [TunnelDomain]
  · simp [TunnelDomain]
    rfl
  · intro other h
    have hd := congrArg String.data h
    simp only [TunnelDomain, String.data_append] at hd
    exact String.ext (List.append_cancel_right hd)

/-! ## Idempotence of `Delete` (claim C12) -/

theorem memClient_normalisesNotFound {ε ρ : Type} (strict : Bool) :
    NormalisesNotFound (memClient strict : Client (MemState ε ρ) ε ρ)
      (fun a t s => s.absent a t = true) where
  connections_absent := fun _ _ _ _ => rfl
  delete_absent := by
    intro a t s h
    simp only [MemState.absent, Bool.and_eq_true, List.all_eq_true] at h
    have h1 : s.tunnels.filter (fun p => !MemState.identified a t p) = s.tunnels :=
      List.filter_eq_self.mpr h.1
    have h2 : s.configs.filter (fun c => decide (c.1 ≠ (a, t))) = s.configs :=
      List.filter_eq_self.mpr h.2
    simp only [memClient, h1, h2]
  delete_done := by
    intro a t s _
    simp only [memClient, MemState.absent, Bool.and_eq_true, List.all_eq_true]
    exact ⟨fun p hp => (List.mem_filter.mp hp).2, fun c hc => (List.mem_filter.mp hc).2⟩

/-- C12. `Delete` is idempotent over a client that normalises "not found" to an
absent result (`NormalisesNotFound`). For every account id and tunnel id:
`Delete` on an absent tunnel returns no error and leaves the remote state
unchanged; and after a `Delete` that returned no error, a second `Delete` with
the same ids returns no error as well and leaves the remote state as the first
left it. -/
theorem delete_idempotent {σ ε ρ : Type} (client : Client σ ε ρ)
    (absent : String → String → σ → Prop) (hc : NormalisesNotFound client absent)
    (accountID tunnelID : String) (st : σ) :
    (absent accountID tunnelID st →
      (Delete client accountID tunnelID st).result = Exec.ret none ∧
      (Delete client accountID tunnelID st).remote = st) ∧
    ((Delete client accountID tunnelID st).result = Exec.ret none →
      (Delete client accountID tunnelID
          (Delete client accountID tunnelID st).remote).result = Exec.ret none ∧
      (Delete client accountID tunnelID
          (Delete client accountID tunnelID st).remote).remote
        = (Delete client accountID tunnelID st).remote) := by
  have habsent : ∀ s : σ, absent accountID tunnelID s →
      (Delete client accountID tunnelID s).result = Exec.ret none ∧
      (Delete client accountID tunnelID s).remote = s := by
    intro s hs
    rw [delete_run, hc.connections_absent accountID tunnelID s hs,
      hc.delete_absent accountID tunnelID s hs]
    exact ⟨rfl, rfl⟩
  refine ⟨habsent st, ?_⟩
  intro hfirst
  apply habsent
  rw [delete_run] at hfirst ⊢
  apply hc.delete_done
  cases hd : (client.DeleteTunnel accountID tunnelID
      (client.DeleteTunnelConnections accountID tunnelID st).2).1 with
  | none => rfl
  | some e => simp [hd] at hfirst

/-- Witness for C12: the in-memory client, deleting "web" twice. -/
theorem delete_idempotent_witness :
    (Delete (memClient true) "acct" "tunnel-" accountWithWeb).result = Exec.ret none ∧
    (Delete (memClient true) "acct" "tunnel-"
        (Delete (memClient true) "acct" "tunnel-" accountWithWeb).remote).result
      = Exec.ret none ∧
    (Delete (memClient true) "acct" "tunnel-"
        (Delete (memClient true) "acct" "tunnel-" accountWithWeb).remote).remote
      = (Delete (memClient true) "acct" "tunnel-" accountWithWeb).remote :=
  ⟨rfl, (delete_idempotent (memClient true) (fun a t s => s.absent a t = true)
    (memClient_normalisesNotFound true) "acct" "tunnel-" accountWithWeb).2 rfl⟩

/-! ## The UDPRoute stub (claim C17) -/

/-- C17. `UDPRouteReconciler.Reconcile` is a stub without effect: for every
reconciler and every request, whatever its name and namespace, it returns the
empty result (no requeue, no requeue delay) and a nil error, makes no call on
the cluster client and leaves the cluster state as it found it. -/
theorem udpRoute_reconcile_is_noop {κ : Type} (r : UDPRouteReconciler κ)
    (req : CtrlRequest) (cluster : κ) :
    (r.Reconcile req cluster).result = ({ Requeue := false, RequeueAfter := 0 }, none) ∧
    (r.Reconcile req cluster).result.1.Requeue = false ∧
    (r.Reconcile req cluster).result.1.RequeueAfter = 0 ∧
    (r.Reconcile req cluster).result.2 = none ∧
    (r.Reconcile req cluster).calls = [] ∧
    (r.Reconcile req cluster).cluster = cluster :=
  ⟨rfl, rfl, rfl, rfl, rfl, rfl⟩

/-! ## Two interleaved `EnsureTunnel` invocations (claim C18) -/

/-- The call-by-call form is `EnsureTunnel`: two steps from the start give its
outcome and its remote state. -/
theorem ensureStep_twice_eq_ensureTunnel {σ ε ρ : Type} (client : Client σ ε ρ)
    (accountID name : String) (st : σ) :
    ensureStep client accountID name
        (ensureStep client accountID name .atLookup st).1
        (ensureStep client accountID name .atLookup st).2
      = (.finished (EnsureTunnel client accountID name st).result,
         (EnsureTunnel client accountID name st).remote) := by
  rcases hget : client.GetTunnelByName accountID name st with ⟨⟨existing, err⟩, st1⟩
  cases err with
  | some e => simp [ensureStep, EnsureTunnel, hget]
  | none =>
    cases existing with
    | some t => simp [ensureStep, EnsureTunnel, hget]
    | none =>
      rcases hcreate : client.CreateTunnel accountID
        { Name := name, ConfigSrc := "cloudflare" } st1 with ⟨⟨made, err2⟩, st2⟩
      cases err2 <;> cases made <;> simp [ensureStep, EnsureTunnel, hget, hcreate]

theorem ensureStep_callsLeft {σ ε ρ : Type} (client : Client σ ε ρ)
    (accountID name : String) (p : EnsurePoint) (st : σ) :
    (ensureStep client accountID name p st).1.callsLeft ≤ p.callsLeft - 1 := by
  cases p with
  | atLookup =>
    rcases hget : client.GetTunnelByName accountID name st with ⟨⟨existing, err⟩, st1⟩
    cases err <;> cases existing <;> simp [ensureStep, hget, EnsurePoint.callsLeft]
  | atCreate =>
    rcases hcreate : client.CreateTunnel accountID
      { Name := name, ConfigSrc := "cloudflare" } st with ⟨⟨made, err2⟩, st2⟩
    cases err2 <;> cases made <;> simp [ensureStep, hcreate, EnsurePoint.callsLeft]
  | finished r => simp [ensureStep, EnsurePoint.callsLeft]

theorem isFinished_of_callsLeft_zero (p : EnsurePoint) (h : p.callsLeft = 0) :
    p.isFinished = true := by
  cases p <;> simp_all [EnsurePoint.callsLeft, EnsurePoint.isFinished]

theorem count_pos_of_any {ε ρ : Type} (s : MemState ε ρ) (accountID name : String)
    (h : s.tunnels.any (MemState.named accountID name) = true) :
    0 < s.count accountID name := by
  obtain ⟨p, hp, hnamed⟩ := List.any_eq_true.mp h
  exact List.length_pos_of_mem (List.mem_filter.mpr ⟨hp, hnamed⟩)

theorem count_zero_of_not_any {ε ρ : Type} (s : MemState ε ρ) (accountID name : String)
    (h : s.tunnels.any (MemState.named accountID name) = false) :
    s.count accountID name = 0 := by
  unfold MemState.count
  rw [List.length_eq_zero, List.filter_eq_nil_iff]
  intro p hp hnamed
  have hall := List.any_eq_false.mp h p hp
  exact hall hnamed

/-- One client call of an `EnsureTunnel` in flight, over the in-memory account that
refuses duplicate names: an account with at most one tunnel of the name keeps
at most one, never loses one, and holds exactly one once the invocation has
finished by this call. -/
theorem memStep_invariant {ε ρ : Type} (accountID name : String) (p : EnsurePoint)
    (s : MemState ε ρ) (h : s.count accountID name ≤ 1) :
    (ensureStep (memClient true) accountID name p s).2.count accountID name ≤ 1 ∧
    ((ensureStep (memClient true) accountID name p s).1.isFinished = true →
      p.isFinished = true ∨
      (ensureStep (memClient true) accountID name p s).2.count accountID name = 1) ∧
    (s.count accountID name = 1 →
      (ensureStep (memClient true) accountID name p s).2.count accountID name = 1) := by
  cases p with
  | atLookup =>
    cases hf : s.tunnels.find? (MemState.named accountID name) with
    | some q =>
      have hstep : ensureStep (memClient true) accountID name .atLookup s
          = (.finished (.ret (some q.2, false, none)), s) := by
        simp [ensureStep, memClient_lookup, hf]
      rw [hstep]
      exact ⟨h, fun _ => Or.inr (count_of_find_some s accountID name q h hf), fun h1 => h1⟩
    | none =>
      have hstep : ensureStep (memClient true) accountID name .atLookup s
          = (.atCreate, s) := by
        simp [ensureStep, memClient_lookup, hf]
      rw [hstep]
      exact ⟨h, fun hfin => by simp [EnsurePoint.isFinished] at hfin, fun h1 => h1⟩
  | atCreate =>
    cases hany : s.tunnels.any (MemState.named accountID name) with
    | true =>
      have hstep : (ensureStep (memClient true) accountID name .atCreate s).2 = s := by
        simp [ensureStep, memClient, hany]
      rw [hstep]
      have hpos := count_pos_of_any s accountID name hany
      exact ⟨h, fun _ => Or.inr (by omega), fun h1 => h1⟩
    | false =>
      have hstep : (ensureStep (memClient true) accountID name .atCreate s).2
          = { s with
              tunnels := s.tunnels ++ [(accountID,
                ({ ID := MemState.freshID s.nextID, Name := name,
                   Status := "inactive" } : Tunnel))],
              nextID := s.nextID + 1 } := by
        simp [ensureStep, memClient, hany]
      rw [hstep]
      have hzero := count_zero_of_not_any s accountID name hany
      have hone : ({ s with
              tunnels := s.tunnels ++ [(accountID,
                ({ ID := MemState.freshID s.nextID, Name := name,
                   Status := "inactive" } : Tunnel))],
              nextID := s.nextID + 1 } : MemState ε ρ).count accountID name = 1 := by
        unfold MemState.count at hzero ⊢
        simp only [List.filter_append, List.length_append, hzero]
        simp [MemState.named]
      exact ⟨by omega, fun _ => Or.inr hone, fun _ => hone⟩
  | finished r =>
    have hstep : ensureStep (memClient true) accountID name (.finished r) s
        = (.finished r, s) := rfl
    rw [hstep]
    exact ⟨h, fun _ => Or.inl rfl, fun h1 => h1⟩

theorem interleave_mem_invariant {ε ρ : Type} (accountID name : String)
    (sched : List Turn) :
    ∀ (w : TwoEnsures (MemState ε ρ)),
      w.remote.count accountID name ≤ 1 →
      (w.first.isFinished = true → w.remote.count accountID name = 1) →
      (w.second.isFinished = true → w.remote.count accountID name = 1) →
      (interleave (memClient true) accountID name sched w).remote.count accountID name ≤ 1 ∧
      ((interleave (memClient true) accountID name sched w).first.isFinished = true →
        (interleave (memClient true) accountID name sched w).remote.count accountID name = 1) ∧
      ((interleave (memClient true) accountID name sched w).second.isFinished = true →
        (interleave (memClient true) accountID name sched w).remote.count accountID name
          = 1) := by
  induction sched with
  | nil =>
    intro w h h1 h2
    exact ⟨h, h1, h2⟩
  | cons turn rest ih =>
    intro w h h1 h2
    cases turn with
    | first =>
      obtain ⟨hle, hfin, hkeep⟩ := memStep_invariant accountID name w.first w.remote h
      simp only [interleave]
      apply ih
      · exact hle
      · intro hf
        rcases hfin hf with hold | hnew
        · exact hkeep (h1 hold)
        · exact hnew
      · intro hs
        exact hkeep (h2 hs)
    | second =>
      obtain ⟨hle, hfin, hkeep⟩ := memStep_invariant accountID name w.second w.remote h
      simp only [interleave]
      apply ih
      · exact hle
      · intro hf
        exact hkeep (h1 hf)
      · intro hs
        rcases hfin hs with hold | hnew
        · exact hkeep (h2 hold)
        · exact hnew

theorem interleave_callsLeft {σ ε ρ : Type} (client : Client σ ε ρ)
    (accountID name : String) (sched : List Turn) :
    ∀ (w : TwoEnsures σ),
      (interleave client accountID name sched w).first.callsLeft
        ≤ w.first.callsLeft - sched.count Turn.first ∧
      (interleave client accountID name sched w).second.callsLeft
        ≤ w.second.callsLeft - sched.count Turn.second := by
  induction sched with
  | nil =>
    intro w
    simp [interleave]
  | cons turn rest ih =>
    intro w
    cases turn with
    | first =>
      have hstep := ensureStep_callsLeft client accountID name w.first w.remote
      obtain ⟨ha, hb⟩ := ih
        { first := (ensureStep client accountID name w.first w.remote).1,
          second := w.second,
          remote := (ensureStep client accountID name w.first w.remote).2 }
      simp only [interleave, List.count_cons]
      simp only at ha hb
      constructor
      · simp
        omega
      · simpa using hb
    | second =>
      have hstep := ensureStep_callsLeft client accountID name w.second w.remote
      obtain ⟨ha, hb⟩ := ih
        { first := w.first,
          second := (ensureStep client accountID name w.second w.remote).1,
          remote := (ensureStep client accountID name w.second w.remote).2 }
      simp only [interleave, List.count_cons]
      simp only at ha hb
      constructor
      · simpa using ha
      · simp
        omega

/-- Over a remote account that itself refuses a second tunnel of the same name (the
in-memory account with its conflict error), two interleaved `EnsureTunnel`
invocations cannot leave a duplicate: from every account state holding at most
one tunnel of the name and under every schedule, the account never holds more
than one tunnel of the name and holds exactly one as soon as one invocation
has finished; and every schedule that gives each invocation its two turns ends
with both invocations finished and exactly one remote tunnel with that name.
The uniqueness here is the work of the account, not of `EnsureTunnel`. -/
theorem ensureTunnel_interleaved_one_tunnel {ε ρ : Type} (accountID name : String)
    (s : MemState ε ρ) (h : s.count accountID name ≤ 1) (sched : List Turn) :
    (interleave (memClient true) accountID name sched
        (TwoEnsures.start s)).remote.count accountID name ≤ 1 ∧
    (((interleave (memClient true) accountID name sched
          (TwoEnsures.start s)).first.isFinished = true ∨
      (interleave (memClient true) accountID name sched
          (TwoEnsures.start s)).second.isFinished = true) →
      (interleave (memClient true) accountID name sched
        (TwoEnsures.start s)).remote.count accountID name = 1) ∧
    (2 ≤ sched.count Turn.first → 2 ≤ sched.count Turn.second →
      (interleave (memClient true) accountID name sched
          (TwoEnsures.start s)).first.isFinished = true ∧
      (interleave (memClient true) accountID name sched
          (TwoEnsures.start s)).second.isFinished = true ∧
      (interleave (memClient true) accountID name sched
        (TwoEnsures.start s)).remote.count accountID name = 1) := by
  obtain ⟨hle, hfirst, hsecond⟩ := interleave_mem_invariant accountID name sched
    (TwoEnsures.start s) h
    (fun hf => by simp [TwoEnsures.start, EnsurePoint.isFinished] at hf)
    (fun hf => by simp [TwoEnsures.start, EnsurePoint.isFinished] at hf)
  refine ⟨hle, fun hor => hor.elim hfirst hsecond, ?_⟩
  intro h1 h2
  obtain ⟨ha, hb⟩ := interleave_callsLeft (memClient true) accountID name sched
    (TwoEnsures.start s)
  have hzero1 : (interleave (memClient true) accountID name sched
      (TwoEnsures.start s)).first.callsLeft = 0 := by
    have ha2 : (interleave (memClient true) accountID name sched
        (TwoEnsures.start s)).first.callsLeft ≤ 2 - sched.count Turn.first := ha
    omega
  have hzero2 : (interleave (memClient true) accountID name sched
      (TwoEnsures.start s)).second.callsLeft = 0 := by
    have hb2 : (interleave (memClient true) accountID name sched
        (TwoEnsures.start s)).second.callsLeft ≤ 2 - sched.count Turn.second := hb
    omega
  have hfin1 := isFinished_of_callsLeft_zero _ hzero1
  have hfin2 := isFinished_of_callsLeft_zero _ hzero2
  exact ⟨hfin1, hfin2, hfirst hfin1⟩

/-- The refusing account at a concrete input: from the empty account, both lookups
before both creates. -/
theorem ensureTunnel_interleaved_one_tunnel_witness :
    (MemState.empty : MemState Unit Unit).count "acct" "web" ≤ 1 ∧
    (interleave (memClient true) "acct" "web"
        [Turn.first, Turn.second, Turn.first, Turn.second]
        (TwoEnsures.start (MemState.empty : MemState Unit Unit))).first.isFinished = true ∧
    (interleave (memClient true) "acct" "web"
        [Turn.first, Turn.second, Turn.first, Turn.second]
        (TwoEnsures.start (MemState.empty : MemState Unit Unit))).second.isFinished = true ∧
    (interleave (memClient true) "acct" "web"
        [Turn.first, Turn.second, Turn.first, Turn.second]
        (TwoEnsures.start (MemState.empty : MemState Unit Unit))).remote.count "acct" "web"
      = 1 :=
  ⟨by decide, (ensureTunnel_interleaved_one_tunnel "acct" "web"
    (MemState.empty : MemState Unit Unit) (by decide)
    [Turn.first, Turn.second, Turn.first, Turn.second]).2.2 (by decide) (by decide)⟩

/-- C18. Two `EnsureTunnel` invocations with the same account id "acct" and name
"web", interleaved against one empty remote account whose client stores every
create, both lookups before both creates. Both lookups report absent, both
invocations call `CreateTunnel` and both return `created = true`, each with a
tunnel of its own, and the account is left with two tunnels named "web", not
one: `EnsureTunnel` has no exclusion and no second lookup between its lookup
and its create. -/
theorem ensureTunnel_interleaved_two_tunnels :
    (interleave (memClient false) "acct" "web" [Turn.first, Turn.second]
        (TwoEnsures.start (MemState.empty : MemState Unit Unit))).first = .atCreate ∧
    (interleave (memClient false) "acct" "web" [Turn.first, Turn.second]
        (TwoEnsures.start (MemState.empty : MemState Unit Unit))).second = .atCreate ∧
    (interleave (memClient false) "acct" "web"
        [Turn.first, Turn.second, Turn.first, Turn.second]
        (TwoEnsures.start (MemState.empty : MemState Unit Unit))).first
      = .finished (.ret (some { ID := "tunnel-", Name := "web", Status := "inactive" },
          true, none)) ∧
    (interleave (memClient false) "acct" "web"
        [Turn.first, Turn.second, Turn.first, Turn.second]
        (TwoEnsures.start (MemState.empty : MemState Unit Unit))).second
      = .finished (.ret (some { ID := "tunnel-i", Name := "web", Status := "inactive" },
          true, none)) ∧
    (interleave (memClient false) "acct" "web"
        [Turn.first, Turn.second, Turn.first, Turn.second]
        (TwoEnsures.start (MemState.empty : MemState Unit Unit))).remote.tunnels
      = [("acct", { ID := "tunnel-", Name := "web", Status := "inactive" }),
         ("acct", { ID := "tunnel-i", Name := "web", Status := "inactive" })] ∧
    (interleave (memClient false) "acct" "web"
        [Turn.first, Turn.second, Turn.first, Turn.second]
        (TwoEnsures.start (MemState.empty : MemState Unit Unit))).remote.count "acct" "web"
      = 2 := by
  decide

/-- The uniqueness under interleaving rests on the refusal of the remote account:
over the in-memory account that stores every create, the same schedule (both
lookups before both creates) leaves two tunnels of the name, and over the
refusing account the invocation that creates second returns the wrapped
conflict error. -/
theorem interleaved_creates_without_refusal :
    (interleave (memClient false) "acct" "web"
        [Turn.first, Turn.second, Turn.first, Turn.second]
        (TwoEnsures.start (MemState.empty : MemState Unit Unit))).remote.count "acct" "web"
      = 2 ∧
    (interleave (memClient true) "acct" "web"
        [Turn.first, Turn.second, Turn.first, Turn.second]
        (TwoEnsures.start (MemState.empty : MemState Unit Unit))).first
      = .finished (.ret (some webTunnel, true, none)) ∧
    (interleave (memClient true) "acct" "web"
        [Turn.first, Turn.second, Turn.first, Turn.second]
        (TwoEnsures.start (MemState.empty : MemState Unit Unit))).second
      = .finished (.ret (none, false,
          some (GoError.wrapf "failed to create tunnel" nameInUse))) := by
  decide

/-! ## Merging conditions (claim C19) -/

theorem resolveCondition_condType (now : Nat) (c update : Condition)
    (h : c.CondType = update.CondType) :
    (resolveCondition now (some c) update).CondType = update.CondType := by
  by_cases hs : c.Status = update.Status <;> simp [resolveCondition, hs, h, stampCondition]

theorem find_map_resolve (now : Nat) (update : Condition) (condType : String) :
    ∀ conditions : List Condition,
      FindCondition (conditions.map (fun c =>
          if c.CondType = update.CondType then resolveCondition now (some c) update else c))
        condType
      = (FindCondition conditions condType).map (fun c =>
          if c.CondType = update.CondType then resolveCondition now (some c) update else c) := by
  intro conditions
  induction conditions with
  | nil => rfl
  | cons c rest ih =>
    unfold FindCondition at ih ⊢
    simp only [List.map_cons, List.find?_cons]
    by_cases hc : c.CondType = update.CondType
    · simp only [hc, if_true, resolveCondition_condType now c update hc]
      by_cases ht : update.CondType = condType
      · have hct : c.CondType = condType := hc.trans ht
        simp [ht, hct]
      · simp only [ht, decide_False]
        exact ih
    · simp only [hc, if_false]
      by_cases ht : c.CondType = condType
      · have hnot : ¬ condType = update.CondType := fun h => hc (ht.trans h)
        simp [ht, hnot]
      · simp only [ht, decide_False]
        exact ih

theorem findCondition_condType (conditions : List Condition) (condType : String)
    (c : Condition) (h : FindCondition conditions condType = some c) :
    c.CondType = condType := by
  unfold FindCondition at h
  simpa using List.find?_some h

/-- What the merge of one update leaves under each type. -/
theorem find_mergeCondition (now : Nat) (conditions : List Condition)
    (update : Condition) (condType : String) :
    FindCondition (mergeCondition now conditions update) condType
      = if condType = update.CondType then
          some (resolveCondition now (FindCondition conditions condType) update)
        else FindCondition conditions condType := by
  unfold mergeCondition
  cases hf : FindCondition conditions update.CondType with
  | none =>
    by_cases ht : condType = update.CondType
    · subst ht
      simp only [if_true, hf]
      unfold FindCondition at hf ⊢
      simp [List.find?_append, hf, stampCondition, resolveCondition]
    · simp only [ht, if_false]
      unfold FindCondition
      have hne : ¬ update.CondType = condType := fun h => ht h.symm
      simp [List.find?_append, stampCondition, hne]
  | some e =>
    simp only [find_map_resolve]
    by_cases ht : condType = update.CondType
    · subst ht
      simp only [if_true, hf, Option.map_some']
      rw [if_pos (findCondition_condType conditions _ e hf)]
    · simp only [ht, if_false]
      cases hc : FindCondition conditions condType with
      | none => rfl
      | some c =>
        have hct := findCondition_condType conditions condType c hc
        simp only [Option.map_some']
        rw [if_neg (fun h => ht (hct.symm.trans h))]

theorem find_mergeConditions_other (now : Nat) (updates : List Condition)
    (condType : String) (h : condType ∉ updates.map Condition.CondType) :
    ∀ existing : List Condition,
      FindCondition (MergeConditions now existing updates) condType
        = FindCondition existing condType := by
  induction updates with
  | nil => intro existing; rfl
  | cons u us ih =>
    intro existing
    simp only [List.map_cons, List.mem_cons, not_or] at h
    unfold MergeConditions at ih ⊢
    rw [List.foldl_cons, ih h.2, find_mergeCondition, if_neg h.1]

theorem find_mergeConditions_updated (now : Nat) (updates : List Condition)
    (hnodup : (updates.map Condition.CondType).Nodup) :
    ∀ (existing : List Condition) (u : Condition), u ∈ updates →
      FindCondition (MergeConditions now existing updates) u.CondType
        = some (resolveCondition now (FindCondition existing u.CondType) u) := by
  induction updates with
  | nil => intro existing u hu; simp at hu
  | cons v vs ih =>
    intro existing u hu
    simp only [List.map_cons, List.nodup_cons] at hnodup
    have hstep : MergeConditions now existing (v :: vs)
        = MergeConditions now (mergeCondition now existing v) vs := rfl
    rw [hstep]
    rcases List.mem_cons.mp hu with heq | hmem
    · subst heq
      rw [find_mergeConditions_other now vs u.CondType hnodup.1, find_mergeCondition,
        if_pos rfl]
    · have hne : u.CondType ≠ v.CondType := by
        intro h
        apply hnodup.1
        rw [← h]
        exact List.mem_map_of_mem _ hmem
      rw [ih hnodup.2 _ u hmem, find_mergeCondition, if_neg hne]

theorem truncateMessage_length (msg : String) :
    (truncateMessage msg).length ≤ MaxConditionMessageLength := by
  unfold truncateMessage
  show (List.take MaxConditionMessageLength msg.data).length ≤ MaxConditionMessageLength
  rw [List.length_take]
  exact Nat.min_le_left _ _

theorem filter_mergeCondition (now : Nat) (keep : String → Bool) (update : Condition)
    (h : keep update.CondType = false) :
    ∀ conditions : List Condition,
      (mergeCondition now conditions update).filter (fun c => keep c.CondType)
        = conditions.filter (fun c => keep c.CondType) := by
  intro conditions
  unfold mergeCondition
  cases FindCondition conditions update.CondType with
  | none => simp [List.filter_append, stampCondition, h]
  | some e =>
    simp only
    induction conditions with
    | nil => rfl
    | cons c rest ih =>
      simp only [List.map_cons, List.filter_cons]
      by_cases hc : c.CondType = update.CondType
      · simp only [hc, if_true, resolveCondition_condType now c update hc, h]
        exact ih
      · simp only [hc, if_false, ih]

theorem filter_mergeConditions (now : Nat) (keep : String → Bool)
    (updates : List Condition) (h : ∀ u ∈ updates, keep u.CondType = false) :
    ∀ existing : List Condition,
      (MergeConditions now existing updates).filter (fun c => keep c.CondType)
        = existing.filter (fun c => keep c.CondType) := by
  induction updates with
  | nil => intro existing; rfl
  | cons u us ih =>
    intro existing
    have hstep : MergeConditions now existing (u :: us)
        = MergeConditions now (mergeCondition now existing u) us := rfl
    rw [hstep, ih (fun v hv => h v (List.mem_cons_of_mem _ hv)),
      filter_mergeCondition now keep u (h u (List.mem_cons_self _ _))]

theorem resolveCondition_message (now : Nat) (existing : Option Condition)
    (update : Condition) :
    (resolveCondition now existing update).Message = truncateMessage update.Message := by
  unfold resolveCondition
  cases existing with
  | none => rfl
  | some c =>
    by_cases hs : c.Status = update.Status <;> simp [hs, stampCondition]

/-- An update whose type is updated once in the call is resolved against the
existing entry of its type. -/
theorem find_mergeConditions_once (now : Nat) (updates : List Condition) :
    ∀ (existing : List Condition) (u : Condition), u ∈ updates →
      (updates.map Condition.CondType).count u.CondType = 1 →
      FindCondition (MergeConditions now existing updates) u.CondType
        = some (resolveCondition now (FindCondition existing u.CondType) u) := by
  induction updates with
  | nil => intro existing u hu; simp at hu
  | cons v vs ih =>
    intro existing u hu hcount
    have hstep : MergeConditions now existing (v :: vs)
        = MergeConditions now (mergeCondition now existing v) vs := rfl
    rw [hstep]
    rw [List.map_cons, List.count_cons] at hcount
    by_cases hv : v.CondType = u.CondType
    · have hzero : (vs.map Condition.CondType).count u.CondType = 0 := by
        simp only [hv, beq_self_eq_true, if_true] at hcount
        omega
      have hnot : u.CondType ∉ vs.map Condition.CondType := List.count_eq_zero.mp hzero
      have huv : u = v := by
        rcases List.mem_cons.mp hu with heq | hmem
        · exact heq
        · exact absurd (List.mem_map_of_mem _ hmem) hnot
      subst huv
      rw [find_mergeConditions_other now vs u.CondType hnot, find_mergeCondition, if_pos rfl]
    · have hone : (vs.map Condition.CondType).count u.CondType = 1 := by
        have hbeq : (v.CondType == u.CondType) = false := by simpa using hv
        simp only [hbeq] at hcount
        simpa using hcount
      have hmem : u ∈ vs := by
        rcases List.mem_cons.mp hu with heq | hmem
        · exact absurd (congrArg Condition.CondType heq).symm hv
        · exact hmem
      rw [ih _ u hmem hone, find_mergeCondition, if_neg (fun h => hv h.symm)]

/-- Every updated type ends with an entry whose message is within the bound. -/
theorem find_mergeConditions_bounded (now : Nat) (updates : List Condition) :
    ∀ (existing : List Condition) (u : Condition), u ∈ updates →
      ∃ r, FindCondition (MergeConditions now existing updates) u.CondType = some r ∧
        r.Message.length ≤ MaxConditionMessageLength := by
  induction updates with
  | nil => intro existing u hu; simp at hu
  | cons v vs ih =>
    intro existing u hu
    have hstep : MergeConditions now existing (v :: vs)
        = MergeConditions now (mergeCondition now existing v) vs := rfl
    rw [hstep]
    by_cases hin : u.CondType ∈ vs.map Condition.CondType
    · obtain ⟨w, hw, hwt⟩ := List.mem_map.mp hin
      obtain ⟨r, hr, hlen⟩ := ih (mergeCondition now existing v) w hw
      rw [hwt] at hr
      exact ⟨r, hr, hlen⟩
    · have huv : u = v := by
        rcases List.mem_cons.mp hu with heq | hmem
        · exact heq
        · exact absurd (List.mem_map_of_mem _ hmem) hin
      subst huv
      refine ⟨resolveCondition now (FindCondition existing u.CondType) u, ?_, ?_⟩
      · rw [find_mergeConditions_other now vs u.CondType hin, find_mergeCondition, if_pos rfl]
      · rw [resolveCondition_message]
        exact truncateMessage_length u.Message

/-- Counterexample for C19. Merged at clock reading 5, the update of `RecordsSynced`
from false (since 5) to true is stamped 5, which is not later than 5. And with
`RecordsSynced` updated twice in one call, to true and back to false, the
second update has the status value of the existing entry and yet the result
carries the new stamp 20 and not the existing time 5. -/
theorem mergeConditions_stamp_not_later_counterexample :
    (FindCondition conditionsBefore "RecordsSynced"
        = some { CondType := "RecordsSynced", Status := .isFalse, Reason := "Pending",
                 Message := "waiting", LastTransitionTime := 5, ObservedGeneration := 1 } ∧
      FindCondition (MergeConditions 5 conditionsBefore conditionUpdates) "RecordsSynced"
        = some { CondType := "RecordsSynced", Status := .isTrue, Reason := "Synced",
                 Message := "done", LastTransitionTime := 5, ObservedGeneration := 2 } ∧
      ¬ (5 < 5)) ∧
    (FindCondition (MergeConditions 20 conditionsBefore repeatedUpdates) "RecordsSynced"
        = some { CondType := "RecordsSynced", Status := .isFalse, Reason := "Lost",
                 Message := "gone", LastTransitionTime := 20, ObservedGeneration := 3 } ∧
      (20 : Nat) ≠ 5) := by
  decide

/-- C19, as the model of the spec has it. `MergeConditions(existing, updates)`
merges the updates in order at one clock reading. For each update whose type
is updated once in the call: when its status value equals the status of the
existing entry of its type, the result holds that entry with its
`LastTransitionTime` (and status, type and observed generation) kept and only
reason and message refreshed; when the status value differs, the result holds
the update with the clock reading as its transition time, which is strictly
later than the existing one when the clock reads later than it, and is not
when the clock reads the same or earlier. Entries of types not in the updates
are passed through unchanged, in place. Every updated type ends with a message
of at most 32768 characters, the truncated message of its update when the type
is updated once. -/
theorem mergeConditions_keeps_or_stamps (now : Nat) (existing updates : List Condition) :
    (∀ u ∈ updates, (updates.map Condition.CondType).count u.CondType = 1 →
      ∀ e, FindCondition existing u.CondType = some e → e.Status = u.Status →
      FindCondition (MergeConditions now existing updates) u.CondType
        = some { e with Reason := u.Reason, Message := truncateMessage u.Message }) ∧
    (∀ u ∈ updates, (updates.map Condition.CondType).count u.CondType = 1 →
      ∀ e, FindCondition existing u.CondType = some e → e.Status ≠ u.Status →
      ∃ r, FindCondition (MergeConditions now existing updates) u.CondType = some r ∧
        r = { u with Message := truncateMessage u.Message, LastTransitionTime := now } ∧
        (e.LastTransitionTime < now → e.LastTransitionTime < r.LastTransitionTime) ∧
        (now ≤ e.LastTransitionTime → r.LastTransitionTime ≤ e.LastTransitionTime)) ∧
    (∀ condType, condType ∉ updates.map Condition.CondType →
      FindCondition (MergeConditions now existing updates) condType
        = FindCondition existing condType) ∧
    ((MergeConditions now existing updates).filter
        (fun c => decide (c.CondType ∉ updates.map Condition.CondType))
      = existing.filter (fun c => decide (c.CondType ∉ updates.map Condition.CondType))) ∧
    (∀ u ∈ updates,
      ∃ r, FindCondition (MergeConditions now existing updates) u.CondType = some r ∧
        r.Message.length ≤ 32768 ∧
        ((updates.map Condition.CondType).count u.CondType = 1 →
          r.Message = truncateMessage u.Message)) := by
  refine ⟨?_, ?_, ?_, ?_, ?_⟩
  · intro u hu hone e he hs
    rw [find_mergeConditions_once now updates existing u hu hone, he]
    simp [resolveCondition, hs]
  · intro u hu hone e he hs
    refine ⟨stampCondition now u, ?_, rfl, fun h => h, fun h => h⟩
    rw [find_mergeConditions_once now updates existing u hu hone, he]
    simp [resolveCondition, hs]
  · intro condType hnot
    exact find_mergeConditions_other now updates condType hnot existing
  · apply filter_mergeConditions now
      (fun ty => decide (ty ∉ updates.map Condition.CondType)) updates
    intro u hu
    simp only [decide_eq_false_iff_not, not_not]
    exact List.mem_map_of_mem _ hu
  · intro u hu
    obtain ⟨r, hr, hlen⟩ := find_mergeConditions_bounded now updates existing u hu
    refine ⟨r, hr, hlen, ?_⟩
    intro hone
    rw [find_mergeConditions_once now updates existing u hu hone] at hr
    cases hr
    exact resolveCondition_message now _ u

/-- Witness for C19: at clock reading 20, `Ready` keeps its time 10 and
`RecordsSynced` is stamped 20. -/
theorem mergeConditions_keeps_or_stamps_witness :
    MergeConditions 20 conditionsBefore conditionUpdates
      = [{ CondType := "Ready", Status := .isTrue, Reason := "StillReady", Message := "fine",
           LastTransitionTime := 10, ObservedGeneration := 1 },
         { CondType := "RecordsSynced", Status := .isTrue, Reason := "Synced",
           Message := "done", LastTransitionTime := 20, ObservedGeneration := 2 }] ∧
    FindCondition (MergeConditions 20 conditionsBefore conditionUpdates) "Ready"
      = some { CondType := "Ready", Status := .isTrue, Reason := "StillReady",
               Message := truncateMessage "fine",
               LastTransitionTime := 10, ObservedGeneration := 1 } :=
  ⟨by decide,
   (mergeConditions_keeps_or_stamps 20 conditionsBefore conditionUpdates).1
      { CondType := "Ready", Status := .isTrue, Reason := "StillReady", Message := "fine",
        LastTransitionTime := 0, ObservedGeneration := 2 }
      (by decide) (by decide)
      { CondType := "Ready", Status := .isTrue, Reason := "Reconciled", Message := "ok",
        LastTransitionTime := 10, ObservedGeneration := 1 }
      (by decide) rfl⟩

/-! ## DNS lifecycle policy (claim C20) -/

/-- C20. Under DNS lifecycle policy upsert-only or create-only, record
reconciliation issues no remote delete call, for every desired and observed
record set; under create-only it issues no update call either, so its calls
are creates only. -/
theorem reconcileRecords_never_deletes (policy : DNSPolicy)
    (desired : List DesiredRecord) (observed : List ObservedRecord)
    (h : policy = DNSPolicy.DNSPolicyUpsertOnly ∨ policy = DNSPolicy.DNSPolicyCreateOnly) :
    (∀ call ∈ reconcileRecords policy desired observed, call.isDelete = false) ∧
    (policy = DNSPolicy.DNSPolicyCreateOnly →
      ∀ call ∈ reconcileRecords policy desired observed,
        call.isUpdate = false ∧ ∃ key content, call = RecordCall.create key content) := by
  have hnotsync : policy ≠ DNSPolicy.DNSPolicySync := by
    rcases h with h | h <;> simp [h]
  constructor
  · intro call hcall
    unfold reconcileRecords at hcall
    rcases List.mem_append.mp hcall with hc | hc
    · obtain ⟨d, -, hd⟩ := List.mem_filterMap.mp hc
      cases hf : observed.find? (fun o => decide (o.key = d.key)) with
      | none =>
        simp only [hf] at hd
        cases hd
        rfl
      | some o =>
        simp only [hf] at hd
        split at hd
        · cases hd
          rfl
        · cases hd
    · obtain ⟨o, -, ho⟩ := List.mem_filterMap.mp hc
      split at ho
      · rename_i hcond
        exact absurd hcond.2.1 hnotsync
      · cases ho
  · intro hco call hcall
    subst hco
    unfold reconcileRecords at hcall
    rcases List.mem_append.mp hcall with hc | hc
    · obtain ⟨d, -, hd⟩ := List.mem_filterMap.mp hc
      cases hf : observed.find? (fun o => decide (o.key = d.key)) with
      | none =>
        simp only [hf] at hd
        cases hd
        exact ⟨rfl, _, _, rfl⟩
      | some o =>
        simp only [hf] at hd
        split at hd
        · rename_i hcond
          exact absurd rfl hcond.2.2
        · cases hd
    · obtain ⟨o, -, ho⟩ := List.mem_filterMap.mp hc
      split at ho
      · rename_i hcond
        exact absurd hcond.2.1 (by decide)
      · cases ho

/-- Witness for C20: one record to update, one to create, one no longer desired;
sync deletes it, upsert-only and create-only do not, create-only only creates. -/
theorem reconcileRecords_never_deletes_witness :
    reconcileRecords .DNSPolicySync desiredRecords observedRecords
      = [RecordCall.update "a.example.com" "t2.cfargotunnel.com",
         RecordCall.create "new.example.com" "t2.cfargotunnel.com",
         RecordCall.delete "old.example.com"] ∧
    reconcileRecords .DNSPolicyUpsertOnly desiredRecords observedRecords
      = [RecordCall.update "a.example.com" "t2.cfargotunnel.com",
         RecordCall.create "new.example.com" "t2.cfargotunnel.com"] ∧
    reconcileRecords .DNSPolicyCreateOnly desiredRecords observedRecords
      = [RecordCall.create "new.example.com" "t2.cfargotunnel.com"] ∧
    (∀ call ∈ reconcileRecords .DNSPolicyUpsertOnly desiredRecords observedRecords,
      call.isDelete = false) :=
  ⟨by decide, by decide, by decide,
   (reconcileRecords_never_deletes .DNSPolicyUpsertOnly desiredRecords observedRecords
      (Or.inl rfl)).1⟩

/-! ## No retry inside the service (claim C21) -/

theorem ensureTunnel_calls_cases {σ ε ρ : Type} (client : Client σ ε ρ)
    (accountID name : String) (st : σ) :
    (EnsureTunnel client accountID name st).calls = [Call.GetTunnelByName accountID name] ∨
    (EnsureTunnel client accountID name st).calls
      = [Call.GetTunnelByName accountID name,
         Call.CreateTunnel accountID { Name := name, ConfigSrc := "cloudflare" }] := by
  rcases hget : client.GetTunnelByName accountID name st with ⟨⟨existing, err⟩, st1⟩
  cases err with
  | some e => left; simp [EnsureTunnel, hget]
  | none =>
    cases existing with
    | some t => left; simp [EnsureTunnel, hget]
    | none =>
      right
      rcases hcreate : client.CreateTunnel accountID
        { Name := name, ConfigSrc := "cloudflare" } st1 with ⟨⟨made, err2⟩, st2⟩
      cases err2 <;> cases made <;> simp [EnsureTunnel, hget, hcreate]

theorem isHealthy_calls {σ ε ρ : Type} (client : Client σ ε ρ)
    (accountID tunnelID : String) (st : σ) :
    (IsHealthy client accountID tunnelID st).calls = [Call.GetTunnel accountID tunnelID] := by
  rcases hget : client.GetTunnel accountID tunnelID st with ⟨⟨tunnel, err⟩, st1⟩
  cases err <;> cases tunnel <;> simp [IsHealthy, hget]

theorem getToken_calls {σ ε ρ : Type} (client : Client σ ε ρ)
    (accountID tunnelID : String) (st : σ) :
    (GetToken client accountID tunnelID st).calls
      = [Call.GetTunnelToken accountID tunnelID] := by
  rcases hget : client.GetTunnelToken accountID tunnelID st with ⟨⟨token, err⟩, st1⟩
  cases err <;> simp [GetToken, hget]

/-- C21. No retry inside the service: in a single invocation, whatever the client
calls return, `EnsureTunnel` calls `GetTunnelByName` exactly once and
`CreateTunnel` at most once and nothing else; `UpdateConfiguration` makes
exactly one call, an `UpdateTunnelConfiguration`; `Delete` makes exactly one
`DeleteTunnelConnections` and one `DeleteTunnel`; `IsHealthy` exactly one
`GetTunnel`; `GetToken` exactly one `GetTunnelToken`. No method calls any
operation twice. -/
theorem service_methods_call_each_operation_at_most_once {σ ε ρ : Type} [Inhabited ε]
    (client : Client σ ε ρ) (accountID ident : String)
    (config : TunnelConfiguration ε ρ) (st : σ) :
    (callCount (EnsureTunnel client accountID ident st).calls .GetTunnelByName = 1 ∧
      callCount (EnsureTunnel client accountID ident st).calls .CreateTunnel ≤ 1 ∧
      (EnsureTunnel client accountID ident st).calls.length ≤ 2) ∧
    (UpdateConfiguration client accountID ident config st).calls
      = [Call.UpdateTunnelConfiguration accountID ident (ensureCatchAllRule config)] ∧
    (Delete client accountID ident st).calls
      = [Call.DeleteTunnelConnections accountID ident, Call.DeleteTunnel accountID ident] ∧
    (IsHealthy client accountID ident st).calls = [Call.GetTunnel accountID ident] ∧
    (GetToken client accountID ident st).calls = [Call.GetTunnelToken accountID ident] ∧
    (∀ op : Operation,
      callCount (EnsureTunnel client accountID ident st).calls op ≤ 1 ∧
      callCount (UpdateConfiguration client accountID ident config st).calls op ≤ 1 ∧
      callCount (Delete client accountID ident st).calls op ≤ 1 ∧
      callCount (IsHealthy client accountID ident st).calls op ≤ 1 ∧
      callCount (GetToken client accountID ident st).calls op ≤ 1) := by
  have hupdate := updateConfiguration_calls client accountID ident config st
  have hdelete : (Delete client accountID ident st).calls
      = [Call.DeleteTunnelConnections accountID ident, Call.DeleteTunnel accountID ident] := by
    rw [delete_run]
  have hhealthy := isHealthy_calls client accountID ident st
  have htoken := getToken_calls client accountID ident st
  refine ⟨?_, hupdate, hdelete, hhealthy, htoken, ?_⟩
  · rcases ensureTunnel_calls_cases client accountID ident st with h | h <;>
      rw [h] <;> simp [callCount, Call.operation]
  · intro op
    rw [hupdate, hdelete, hhealthy, htoken]
    refine ⟨?_, ?_, ?_, ?_, ?_⟩
    · rcases ensureTunnel_calls_cases client accountID ident st with h | h <;>
        rw [h] <;> cases op <;> simp [callCount, Call.operation]
    all_goals (cases op <;> simp [callCount, Call.operation])

/-! ## The exact behaviour of `ensureCatchAllRule` (claims C22 to C26) -/

theorem ensureCatchAllRule_endsInCatchAll {ε ρ : Type} [Inhabited ε]
    (config : TunnelConfiguration ε ρ) :
    endsInCatchAll (ensureCatchAllRule config).Ingress := by
  by_cases hc : endsInCatchAll config.Ingress
  · rw [(ensureCatchAllRule_eq config).1 hc]
    exact hc
  · rw [(ensureCatchAllRule_eq config).2 hc]
    exact endsInCatchAll_catchAllLiteral _

theorem ensureCatchAllRule_ingress {ε ρ : Type} [Inhabited ε]
    (config : TunnelConfiguration ε ρ) :
    (endsInCatchAll config.Ingress →
      (ensureCatchAllRule config).Ingress = config.Ingress) ∧
    (¬ endsInCatchAll config.Ingress →
      (ensureCatchAllRule config).Ingress = config.Ingress ++ [catchAllLiteral ε]) := by
  constructor
  · intro hc
    rw [(ensureCatchAllRule_eq config).1 hc]
  · intro hc
    rw [(ensureCatchAllRule_eq config).2 hc]

theorem ne_append_singleton {α : Type} (l : List α) (a : α) : l ≠ l ++ [a] := by
  intro h
  have hlen := congrArg List.length h
  simp at hlen

theorem not_endsInCatchAll_iff {ε : Type} (rules : List (IngressRule ε)) :
    ¬ endsInCatchAll rules ↔
      (rules = [] ∨ ∃ r, rules.getLast? = some r ∧ (r.Hostname ≠ "" ∨ r.Path ≠ "")) := by
  rcases List.eq_nil_or_concat rules with h | ⟨l, a, h⟩
  · subst h
    simp [not_endsInCatchAll_nil]
  · subst h
    rw [List.concat_eq_append, endsInCatchAll_concat, List.getLast?_concat]
    constructor
    · intro hn
      right
      refine ⟨a, rfl, ?_⟩
      by_cases hh : a.Hostname = ""
      · right
        exact fun hp => hn ⟨hh, hp⟩
      · left
        exact hh
    · rintro (hnil | ⟨r, hr, hor⟩)
      · simp at hnil
      · cases hr
        rintro ⟨hh, hp⟩
        rcases hor with h1 | h1
        · exact h1 hh
        · exact h1 hp

theorem endsInCatchAll_map_service {ε : Type} (g : IngressRule ε → String)
    (rules : List (IngressRule ε)) :
    endsInCatchAll (rules.map (fun r => { r with Service := g r })) ↔ endsInCatchAll rules := by
  rcases List.eq_nil_or_concat rules with h | ⟨l, a, h⟩
  · subst h
    simp
  · subst h
    rw [List.concat_eq_append, List.map_append, List.map_singleton,
      endsInCatchAll_concat, endsInCatchAll_concat]

/-- C22. The code at the input where it departs from the claim and from its own
comment ("catch-all (no hostname)", tunnel.go 175). The last rule of
`pathRuleLast` has an empty `Hostname` (and the path "/api"), and
`ensureCatchAllRule` does not return the configuration unchanged: it appends
the catch-all after that rule, three rules in all. -/
theorem ensureCatchAllRule_hostname_alone_not_enough :
    (∃ r, pathRuleLast.Ingress.getLast? = some r ∧ r.Hostname = "") ∧
    ensureCatchAllRule pathRuleLast ≠ pathRuleLast ∧
    (ensureCatchAllRule pathRuleLast).Ingress
      = pathRuleLast.Ingress ++
          [{ Hostname := "", Path := "", Service := "http_status:404", Extra := () }] := by
  refine ⟨⟨_, rfl, rfl⟩, ?_, ?_⟩ <;> decide

/-- The test the code makes (tunnel.go 177). The catch-all check looks at the
hostname and at the path: for every configuration whose last ingress rule has
an empty `Hostname`,
`ensureCatchAllRule` returns the configuration unchanged if and only if the
`Path` of that rule is empty as well; when the `Path` is not empty, the
catch-all is appended after it. -/
theorem ensureCatchAllRule_checks_hostname_and_path {ε ρ : Type} [Inhabited ε]
    (config : TunnelConfiguration ε ρ) (r : IngressRule ε)
    (hlast : config.Ingress.getLast? = some r) (hhost : r.Hostname = "") :
    (ensureCatchAllRule config = config ↔ r.Path = "") ∧
    (r.Path = "" → (ensureCatchAllRule config).Ingress = config.Ingress) ∧
    (r.Path ≠ "" →
      (ensureCatchAllRule config).Ingress = config.Ingress ++ [catchAllLiteral ε]) := by
  have hiff : endsInCatchAll config.Ingress ↔ r.Path = "" := by
    constructor
    · rintro ⟨r2, hr2, -, hp⟩
      rw [hlast] at hr2
      cases hr2
      exact hp
    · intro hp
      exact ⟨r, hlast, hhost, hp⟩
  refine ⟨?_, ?_, ?_⟩
  · constructor
    · intro heq
      by_contra hp
      have hnot : ¬ endsInCatchAll config.Ingress := fun h => hp (hiff.1 h)
      have hingress := (ensureCatchAllRule_ingress config).2 hnot
      rw [heq] at hingress
      exact ne_append_singleton _ _ hingress
    · intro hp
      exact (ensureCatchAllRule_eq config).1 (hiff.2 hp)
  · intro hp
    exact (ensureCatchAllRule_ingress config).1 (hiff.2 hp)
  · intro hp
    exact (ensureCatchAllRule_ingress config).2 (fun h => hp (hiff.1 h))

/-- The test the code makes, at the path rule last. -/
theorem ensureCatchAllRule_checks_hostname_and_path_witness :
    pathRuleLast.Ingress.getLast?
      = some { Hostname := "", Path := "/api", Service := "http://api:80", Extra := () } ∧
    (ensureCatchAllRule pathRuleLast).Ingress
      = pathRuleLast.Ingress ++ [catchAllLiteral Unit] :=
  ⟨rfl, (ensureCatchAllRule_checks_hostname_and_path pathRuleLast
    { Hostname := "", Path := "/api", Service := "http://api:80", Extra := () }
    rfl rfl).2.2 (by decide)⟩

/-- C23. The exact condition for appending. `ensureCatchAllRule` either leaves the
ingress list as it is or appends one rule to it; it appends if and only if the
list is empty or its last rule has a non-empty `Hostname` or a non-empty
`Path`; the `Service` fields are not consulted (rewriting the services of the
rules in any way does not change whether a rule is appended); and the rule
appended is the literal with `Service = "http_status:404"`, empty `Hostname`
and `Path`, and the zero value in every other field. -/
theorem ensureCatchAllRule_appends_iff {ε ρ : Type} [Inhabited ε]
    (config : TunnelConfiguration ε ρ) :
    ((ensureCatchAllRule config).Ingress = config.Ingress ∨
      (ensureCatchAllRule config).Ingress = config.Ingress ++
        [{ Hostname := "", Path := "", Service := "http_status:404", Extra := default }]) ∧
    ((ensureCatchAllRule config).Ingress = config.Ingress ++
        [{ Hostname := "", Path := "", Service := "http_status:404", Extra := default }] ↔
      (config.Ingress = [] ∨
        ∃ r, config.Ingress.getLast? = some r ∧ (r.Hostname ≠ "" ∨ r.Path ≠ ""))) ∧
    ((ensureCatchAllRule config).Ingress.length = config.Ingress.length + 1 ↔
      (config.Ingress = [] ∨
        ∃ r, config.Ingress.getLast? = some r ∧ (r.Hostname ≠ "" ∨ r.Path ≠ ""))) ∧
    (∀ g : IngressRule ε → String,
      ((ensureCatchAllRule
          ({ config with Ingress := config.Ingress.map (fun r => { r with Service := g r }) } :
            TunnelConfiguration ε ρ)).Ingress.length
        = (config.Ingress.map (fun r => { r with Service := g r })).length + 1 ↔
       (ensureCatchAllRule config).Ingress.length = config.Ingress.length + 1)) := by
  have hlit : ({ Hostname := "", Path := "", Service := "http_status:404",
                 Extra := default } : IngressRule ε) = catchAllLiteral ε := rfl
  rw [hlit]
  have hlen : ∀ c : TunnelConfiguration ε ρ,
      ((ensureCatchAllRule c).Ingress.length = c.Ingress.length + 1 ↔
        ¬ endsInCatchAll c.Ingress) := by
    intro c
    by_cases hc : endsInCatchAll c.Ingress
    · rw [(ensureCatchAllRule_ingress c).1 hc]
      simp [hc]
    · rw [(ensureCatchAllRule_ingress c).2 hc]
      simp [hc]
  refine ⟨?_, ?_, ?_, ?_⟩
  · by_cases hc : endsInCatchAll config.Ingress
    · exact Or.inl ((ensureCatchAllRule_ingress config).1 hc)
    · exact Or.inr ((ensureCatchAllRule_ingress config).2 hc)
  · rw [← not_endsInCatchAll_iff]
    by_cases hc : endsInCatchAll config.Ingress
    · rw [(ensureCatchAllRule_ingress config).1 hc]
      constructor
      · intro h
        exact absurd h (ne_append_singleton _ _)
      · intro h
        exact absurd hc h
    · rw [(ensureCatchAllRule_ingress config).2 hc]
      exact ⟨fun _ => hc, fun _ => rfl⟩
  · rw [← not_endsInCatchAll_iff]
    exact hlen config
  · intro g
    rw [hlen, hlen config]
    simp only [endsInCatchAll_map_service]

/-- C24. `ensureCatchAllRule` never drops, reorders or rewrites a rule of the caller:
for every configuration the input ingress list is a prefix of the output
ingress list, the output length is the input length or the input length plus
one, and every rule of the input is at the same index in the output; so a
hostname-less rule that is not last stays where it is. -/
theorem ensureCatchAllRule_keeps_rules {ε ρ : Type} [Inhabited ε]
    (config : TunnelConfiguration ε ρ) :
    config.Ingress <+: (ensureCatchAllRule config).Ingress ∧
    ((ensureCatchAllRule config).Ingress.length = config.Ingress.length ∨
      (ensureCatchAllRule config).Ingress.length = config.Ingress.length + 1) ∧
    (∀ (i : Nat) (r : IngressRule ε), config.Ingress[i]? = some r →
      (ensureCatchAllRule config).Ingress[i]? = some r) ∧
    (∀ (i : Nat) (r : IngressRule ε), i + 1 < config.Ingress.length →
      config.Ingress[i]? = some r → r.Hostname = "" →
      (ensureCatchAllRule config).Ingress[i]? = some r) := by
  have hindex : ∀ (i : Nat) (r : IngressRule ε), config.Ingress[i]? = some r →
      (ensureCatchAllRule config).Ingress[i]? = some r := by
    intro i r hr
    by_cases hc : endsInCatchAll config.Ingress
    · rw [(ensureCatchAllRule_ingress config).1 hc]
      exact hr
    · rw [(ensureCatchAllRule_ingress config).2 hc]
      have hi : i < config.Ingress.length := by
        by_contra hge
        rw [List.getElem?_eq_none (Nat.le_of_not_lt hge)] at hr
        cases hr
      rw [List.getElem?_append_left hi]
      exact hr
  refine ⟨?_, ?_, hindex, fun i r _ hr _ => hindex i r hr⟩
  · by_cases hc : endsInCatchAll config.Ingress
    · rw [(ensureCatchAllRule_ingress config).1 hc]
    · rw [(ensureCatchAllRule_ingress config).2 hc]
      exact List.prefix_append _ _
  · by_cases hc : endsInCatchAll config.Ingress
    · left
      rw [(ensureCatchAllRule_ingress config).1 hc]
    · right
      rw [(ensureCatchAllRule_ingress config).2 hc]
      simp

/-- Witness for C24: the hostname-less rule first stays first, the catch-all is
added after the host rule. -/
theorem ensureCatchAllRule_keeps_rules_witness :
    (ensureCatchAllRule catchAllFirst).Ingress[0]?
      = some { Hostname := "", Path := "", Service := "http://early:80", Extra := () } ∧
    (ensureCatchAllRule catchAllFirst).Ingress
      = catchAllFirst.Ingress ++ [catchAllLiteral Unit] :=
  ⟨(ensureCatchAllRule_keeps_rules catchAllFirst).2.2.1 0
      { Hostname := "", Path := "", Service := "http://early:80", Extra := () } rfl,
   by decide⟩

/-- C25. `ensureCatchAllRule` is idempotent: for every configuration `c`,
`ensureCatchAllRule (ensureCatchAllRule c) = ensureCatchAllRule c`.
Consequently, for every rule list and defaults, `UpdateConfiguration` given
`BuildConfiguration rules defaults` sends exactly that configuration to the
client, with no second catch-all added. -/
theorem ensureCatchAllRule_idempotent {σ ε ρ : Type} [Inhabited ε]
    (c : TunnelConfiguration ε ρ) :
    ensureCatchAllRule (ensureCatchAllRule c) = ensureCatchAllRule c ∧
    (∀ (rules : List (IngressRule ε)) (defaults : Option ρ),
      ensureCatchAllRule (BuildConfiguration rules defaults)
        = BuildConfiguration rules defaults) ∧
    (∀ (client : Client σ ε ρ) (accountID tunnelID : String)
       (rules : List (IngressRule ε)) (defaults : Option ρ) (st : σ),
      (UpdateConfiguration client accountID tunnelID
          (BuildConfiguration rules defaults) st).calls
        = [Call.UpdateTunnelConfiguration accountID tunnelID
            (BuildConfiguration rules defaults)]) := by
  have hidem : ∀ d : TunnelConfiguration ε ρ,
      ensureCatchAllRule (ensureCatchAllRule d) = ensureCatchAllRule d :=
    fun d => (ensureCatchAllRule_eq (ensureCatchAllRule d)).1
      (ensureCatchAllRule_endsInCatchAll d)
  refine ⟨hidem c, ?_, ?_⟩
  · intro rules defaults
    unfold BuildConfiguration
    exact hidem _
  · intro client accountID tunnelID rules defaults st
    rw [updateConfiguration_calls]
    unfold BuildConfiguration
    rw [hidem]

/-- C26. Frame: `ensureCatchAllRule` changes only the `Ingress` field. For every
configuration `c` the `OriginRequest` of the result is the `OriginRequest` of
`c`; so `BuildConfiguration rules defaults` has `OriginRequest = defaults`, and
the configuration `UpdateConfiguration` sends to the client carries the
`OriginRequest` of the configuration it was given. -/
theorem ensureCatchAllRule_keeps_originRequest {σ ε ρ : Type} [Inhabited ε]
    (c : TunnelConfiguration ε ρ) :
    (ensureCatchAllRule c).OriginRequest = c.OriginRequest ∧
    (∀ (rules : List (IngressRule ε)) (defaults : Option ρ),
      (BuildConfiguration rules defaults).OriginRequest = defaults) ∧
    (∀ (client : Client σ ε ρ) (accountID tunnelID : String) (st : σ)
       (a t : String) (sent : TunnelConfiguration ε ρ),
      Call.UpdateTunnelConfiguration a t sent
          ∈ (UpdateConfiguration client accountID tunnelID c st).calls →
        sent.OriginRequest = c.OriginRequest) := by
  have hframe : ∀ d : TunnelConfiguration ε ρ,
      (ensureCatchAllRule d).OriginRequest = d.OriginRequest := by
    intro d
    by_cases hc : endsInCatchAll d.Ingress
    · rw [(ensureCatchAllRule_eq d).1 hc]
    · rw [(ensureCatchAllRule_eq d).2 hc]
  refine ⟨hframe c, ?_, ?_⟩
  · intro rules defaults
    unfold BuildConfiguration
    exact hframe _
  · intro client accountID tunnelID st a t sent hmem
    rw [updateConfiguration_calls] at hmem
    simp only [List.mem_singleton, Call.UpdateTunnelConfiguration.injEq] at hmem
    obtain ⟨-, -, hsent⟩ := hmem
    rw [hsent]
    exact hframe c

/-! ## `IsHealthy` on a client error (claim C27) -/

/-- C27. If `GetTunnel` returns an error `e`, whatever tunnel comes with it,
`IsHealthy` returns false together with a non-nil error that wraps `e`; and
`IsHealthy` never returns true together with an error. It always returns. -/
theorem isHealthy_error_behaviour {σ ε ρ : Type} (client : Client σ ε ρ)
    (accountID tunnelID : String) (st : σ) :
    (∀ (x : Option Tunnel) (e : GoError) (st1 : σ),
      client.GetTunnel accountID tunnelID st = ((x, some e), st1) →
      (IsHealthy client accountID tunnelID st).result
          = Exec.ret (false, some (GoError.wrapf "failed to get tunnel" e)) ∧
      (GoError.wrapf "failed to get tunnel" e).wraps e = true) ∧
    (∀ (healthy : Bool) (err : Option GoError),
      (IsHealthy client accountID tunnelID st).result = Exec.ret (healthy, err) →
      healthy = true → err = none) ∧
    (∃ (healthy : Bool) (err : Option GoError),
      (IsHealthy client accountID tunnelID st).result = Exec.ret (healthy, err)) := by
  rcases hget : client.GetTunnel accountID tunnelID st with ⟨⟨tunnel, err1⟩, st0⟩
  refine ⟨?_, ?_, ?_⟩
  · intro x e st1 h
    cases h
    refine ⟨?_, GoError.wrapf_wraps _ e⟩
    simp [IsHealthy, hget]
  · intro healthy err hres hh
    cases err1 with
    | some e =>
      simp [IsHealthy, hget] at hres
      rw [hh] at hres
      simp at hres
    | none =>
      cases tunnel with
      | none =>
        simp [IsHealthy, hget] at hres
        rw [hh] at hres
        simp at hres
      | some t =>
        simp [IsHealthy, hget] at hres
        exact hres.2.symm
  · cases err1 with
    | some e =>
      exact ⟨false, some (GoError.wrapf "failed to get tunnel" e), by simp [IsHealthy, hget]⟩
    | none =>
      cases tunnel with
      | none => exact ⟨false, none, by simp [IsHealthy, hget]⟩
      | some t =>
        exact ⟨t.Status == "healthy" || t.Status == "active", none, by simp [IsHealthy, hget]⟩

/-- Witness for C27: the remote API out of reach. -/
theorem isHealthy_error_behaviour_witness :
    downClient.GetTunnel "acct" "tunnel-" ()
      = ((none, some (GoError.remote false "service unavailable")), ()) ∧
    (IsHealthy downClient "acct" "tunnel-" ()).result
      = Exec.ret (false,
          some (GoError.wrapf "failed to get tunnel"
            (GoError.remote false "service unavailable"))) :=
  ⟨rfl, ((isHealthy_error_behaviour downClient "acct" "tunnel-" ()).1 none
    (GoError.remote false "service unavailable") () rfl).1⟩

end Cfgate
